import Mathlib

/-!
Shallow embedding of the AI-Receptionist backend (src/assistantbackend.py).
Instants are modelled as minutes since the proleptic-Gregorian epoch
0001-01-01 (a Monday, matching Python's weekday numbering).  The SQLite
columns start_time / end_time hold ISO-8601 strings, whose lexicographic
order coincides with chronological order for the four-digit-year range, so
SQL comparisons on those TEXT columns are modelled as Nat comparisons on
minute counts.
-/

namespace AR

/-- Value of an ASCII digit character, mirroring the regex digit class used
by Python's strptime. -/
def digitVal (c : Char) : Option Nat :=
  if 48 ≤ c.toNat ∧ c.toNat ≤ 57 then some (c.toNat - 48) else none

/-- ASCII digit character for a value below 10. -/
def digitChar (n : Nat) : Char := Char.ofNat (48 + n)

/-- Two-digit zero-padded rendering, as produced by strftime for
%m, %d, %H, %M, %I. -/
def pad2 (n : Nat) : List Char := [digitChar (n / 10), digitChar (n % 10)]

/-- Four-digit zero-padded rendering, as produced by strftime for %Y. -/
def pad4 (n : Nat) : List Char :=
  [digitChar (n / 1000), digitChar (n / 100 % 10),
   digitChar (n / 10 % 10), digitChar (n % 10)]

/-- Whitespace as recognised by Python's str.strip and the regex \s class
(ASCII range, which is all the backend's data contains). -/
def isSpaceChar (c : Char) : Bool :=
  c = ' ' || c = '\t' || c = '\n' || c = '\r' || c.toNat = 11 || c.toNat = 12

/-- ASCII lower-casing, mirroring str.lower on the ASCII names the backend
compares. -/
def lowerChar (c : Char) : Char :=
  if 65 ≤ c.toNat ∧ c.toNat ≤ 90 then Char.ofNat (c.toNat + 32) else c

/-- str.lower on a whole string. -/
def lowerStr (s : String) : String := ⟨s.toList.map lowerChar⟩

/-- Drop trailing whitespace. -/
def dropTrailing (l : List Char) : List Char :=
  (l.reverse.dropWhile isSpaceChar).reverse

/-- Python str.strip(): drop leading and trailing whitespace. -/
def stripChars (l : List Char) : List Char :=
  dropTrailing (l.dropWhile isSpaceChar)

/-- Helper for splitOnChar, accumulating the current fragment reversed. -/
def splitOnCharAux (sep : Char) : List Char → List Char → List (List Char)
  | [], acc => [acc.reverse]
  | c :: rest, acc =>
    if c = sep then acc.reverse :: splitOnCharAux sep rest []
    else splitOnCharAux sep rest (c :: acc)

/-- Python str.split(sep) for a single-character separator. -/
def splitOnChar (sep : Char) (l : List Char) : List (List Char) :=
  splitOnCharAux sep l []

/-- First continuation success over an ordered list of local matches; this is
the backtracking order of a regex alternation. -/
def firstSome {α β : Type} : List α → (α → Option β) → Option β
  | [], _ => none
  | a :: rest, k =>
    match k a with
    | some b => some b
    | none => firstSome rest k

/-- Regex alternatives for %m, in strptime order 1[0-2] | 0[1-9] | [1-9]. -/
def altsM (cs : List Char) : List (Nat × List Char) :=
  (match cs with
   | a :: b :: rest =>
     match digitVal a, digitVal b with
     | some x, some y =>
       (if x = 1 ∧ y ≤ 2 then [(10 + y, rest)] else []) ++
       (if x = 0 ∧ 1 ≤ y then [(y, rest)] else [])
     | _, _ => []
   | _ => []) ++
  (match cs with
   | a :: rest =>
     match digitVal a with
     | some x => if 1 ≤ x ∧ x ≤ 9 then [(x, rest)] else []
     | none => []
   | [] => [])

/-- Regex alternatives for %I: same character class as %m. -/
def altsI (cs : List Char) : List (Nat × List Char) := altsM cs

/-- Regex alternatives for %d, in strptime order
3[01] | [12]\d | 0[1-9] | [1-9]. -/
def altsD (cs : List Char) : List (Nat × List Char) :=
  (match cs with
   | a :: b :: rest =>
     match digitVal a, digitVal b with
     | some x, some y =>
       (if x = 3 ∧ y ≤ 1 then [(30 + y, rest)] else []) ++
       (if x = 1 ∨ x = 2 then [(10 * x + y, rest)] else []) ++
       (if x = 0 ∧ 1 ≤ y then [(y, rest)] else [])
     | _, _ => []
   | _ => []) ++
  (match cs with
   | a :: rest =>
     match digitVal a with
     | some x => if 1 ≤ x ∧ x ≤ 9 then [(x, rest)] else []
     | none => []
   | [] => [])

/-- Regex alternatives for %H, in strptime order 2[0-3] | [0-1]\d | \d. -/
def altsH (cs : List Char) : List (Nat × List Char) :=
  (match cs with
   | a :: b :: rest =>
     match digitVal a, digitVal b with
     | some x, some y =>
       (if x = 2 ∧ y ≤ 3 then [(20 + y, rest)] else []) ++
       (if x ≤ 1 then [(10 * x + y, rest)] else [])
     | _, _ => []
   | _ => []) ++
  (match cs with
   | a :: rest =>
     match digitVal a with
     | some x => [(x, rest)]
     | none => []
   | [] => [])

/-- Regex alternatives for %M, in strptime order [0-5]\d | \d. -/
def altsMin (cs : List Char) : List (Nat × List Char) :=
  (match cs with
   | a :: b :: rest =>
     match digitVal a, digitVal b with
     | some x, some y => if x ≤ 5 then [(10 * x + y, rest)] else []
     | _, _ => []
   | _ => []) ++
  (match cs with
   | a :: rest =>
     match digitVal a with
     | some x => [(x, rest)]
     | none => []
   | [] => [])

/-- Exactly four digits, the strptime regex for %Y. -/
def altsY (cs : List Char) : List (Nat × List Char) :=
  match cs with
  | a :: b :: c :: d :: rest =>
    match digitVal a, digitVal b, digitVal c, digitVal d with
    | some w, some x, some y, some z =>
      [(((w * 10 + x) * 10 + y) * 10 + z, rest)]
    | _, _, _, _ => []
  | _ => []

/-- Literal character in a format pattern. -/
def litP (ch : Char) (cs : List Char) : Option (List Char) :=
  match cs with
  | c :: rest => if c = ch then some rest else none
  | [] => none

/-- Whitespace in a strptime pattern matches \s+. -/
def wsP (cs : List Char) : Option (List Char) :=
  match cs with
  | c :: rest =>
    if isSpaceChar c then some (rest.dropWhile isSpaceChar) else none
  | [] => none

/-- Case-insensitive am/pm, the strptime %p alternation; true means pm. -/
def ampmP (cs : List Char) : Option (Bool × List Char) :=
  match cs with
  | a :: b :: rest =>
    if lowerChar a = 'a' ∧ lowerChar b = 'm' then some (false, rest)
    else if lowerChar a = 'p' ∧ lowerChar b = 'm' then some (true, rest)
    else none
  | _ => none

/-- Case-insensitive match of a lower-case name against the input prefix. -/
def matchNameCI : List Char → List Char → Option (List Char)
  | [], rest => some rest
  | _ :: _, [] => none
  | n :: ns, c :: cs => if lowerChar c = n then matchNameCI ns cs else none

/-- Try each name in order, returning its 1-based index and the rest. -/
def matchMonthAux : List (List Char) → Nat → List Char →
    Option (Nat × List Char)
  | [], _, _ => none
  | n :: rest, idx, cs =>
    match matchNameCI n cs with
    | some r => some (idx, r)
    | none => matchMonthAux rest (idx + 1) cs

/-- Full month names as matched by strptime %B (lower-cased). -/
def monthNamesFullLower : List (List Char) :=
  ["january".toList, "february".toList, "march".toList, "april".toList,
   "may".toList, "june".toList, "july".toList, "august".toList,
   "september".toList, "october".toList, "november".toList,
   "december".toList]

/-- Abbreviated month names as matched by strptime %b (lower-cased). -/
def monthNamesAbbrevLower : List (List Char) :=
  ["jan".toList, "feb".toList, "mar".toList, "apr".toList, "may".toList,
   "jun".toList, "jul".toList, "aug".toList, "sep".toList, "oct".toList,
   "nov".toList, "dec".toList]

/-- Calendar date as produced by datetime.strptime(...).date(). -/
structure PDate where
  year : Nat
  month : Nat
  day : Nat
deriving DecidableEq

/-- Wall-clock time as produced by datetime.strptime(...).time(). -/
structure PTime where
  hour : Nat
  minute : Nat
deriving DecidableEq

/-- Combined value of datetime.combine(parsed_date, parsed_time). -/
structure PDateTime where
  date : PDate
  time : PTime
deriving DecidableEq

/-- Gregorian leap-year rule used by Python's datetime. -/
def isLeapYear (y : Nat) : Bool :=
  y % 4 = 0 && (y % 100 ≠ 0 || y % 400 = 0)

/-- Length of a month, as validated by the datetime constructor. -/
def daysInMonth (y m : Nat) : Nat :=
  if m = 2 then (if isLeapYear y then 29 else 28)
  else if m = 4 ∨ m = 6 ∨ m = 9 ∨ m = 11 then 30
  else 31

/-- Validation performed by the datetime constructor after the strptime
regex match (year 1..9999, day within the month). -/
def mkValidDate (y m d : Nat) : Option PDate :=
  if 1 ≤ y ∧ y ≤ 9999 ∧ 1 ≤ m ∧ m ≤ 12 ∧ 1 ≤ d ∧ d ≤ daysInMonth y m
  then some ⟨y, m, d⟩ else none

/-- strptime with pattern %Y-%m-%d. -/
def pYmd (cs : List Char) : Option PDate :=
  firstSome (altsY cs) fun yr =>
    (litP '-' yr.2).bind fun r2 =>
    firstSome (altsM r2) fun mr =>
      (litP '-' mr.2).bind fun r4 =>
      firstSome (altsD r4) fun dr =>
        if dr.2 = [] then mkValidDate yr.1 mr.1 dr.1 else none

/-- strptime with pattern %m/%d/%Y. -/
def pMdYs (cs : List Char) : Option PDate :=
  firstSome (altsM cs) fun mr =>
    (litP '/' mr.2).bind fun r2 =>
    firstSome (altsD r2) fun dr =>
      (litP '/' dr.2).bind fun r4 =>
      firstSome (altsY r4) fun yr =>
        if yr.2 = [] then mkValidDate yr.1 mr.1 dr.1 else none

/-- strptime with pattern %m-%d-%Y. -/
def pMdYd (cs : List Char) : Option PDate :=
  firstSome (altsM cs) fun mr =>
    (litP '-' mr.2).bind fun r2 =>
    firstSome (altsD r2) fun dr =>
      (litP '-' dr.2).bind fun r4 =>
      firstSome (altsY r4) fun yr =>
        if yr.2 = [] then mkValidDate yr.1 mr.1 dr.1 else none

/-- strptime with pattern %B %d, %Y (full month name). -/
def pBdY (cs : List Char) : Option PDate :=
  (matchMonthAux monthNamesFullLower 1 cs).bind fun mr =>
    (wsP mr.2).bind fun r2 =>
    firstSome (altsD r2) fun dr =>
      (litP ',' dr.2).bind fun r4 =>
      (wsP r4).bind fun r5 =>
      firstSome (altsY r5) fun yr =>
        if yr.2 = [] then mkValidDate yr.1 mr.1 dr.1 else none

/-- strptime with pattern %b %d, %Y (abbreviated month name). -/
def pbdY (cs : List Char) : Option PDate :=
  (matchMonthAux monthNamesAbbrevLower 1 cs).bind fun mr =>
    (wsP mr.2).bind fun r2 =>
    firstSome (altsD r2) fun dr =>
      (litP ',' dr.2).bind fun r4 =>
      (wsP r4).bind fun r5 =>
      firstSome (altsY r5) fun yr =>
        if yr.2 = [] then mkValidDate yr.1 mr.1 dr.1 else none

/-- Conversion strptime applies to %I plus %p to get a 24h hour. -/
def hour12to24 (i : Nat) (pm : Bool) : Nat :=
  if pm then (if i = 12 then 12 else i + 12)
  else (if i = 12 then 0 else i)

/-- strptime with pattern %H:%M. -/
def pHM (cs : List Char) : Option PTime :=
  firstSome (altsH cs) fun hr =>
    (litP ':' hr.2).bind fun r2 =>
    firstSome (altsMin r2) fun mr =>
      if mr.2 = [] then some ⟨hr.1, mr.1⟩ else none

/-- strptime with pattern %I:%M %p. -/
def pIMp (cs : List Char) : Option PTime :=
  firstSome (altsI cs) fun hr =>
    (litP ':' hr.2).bind fun r2 =>
    firstSome (altsMin r2) fun mr =>
      (wsP mr.2).bind fun r4 =>
      (ampmP r4).bind fun pr =>
        if pr.2 = [] then some ⟨hour12to24 hr.1 pr.1, mr.1⟩ else none

/-- strptime with pattern %I:%M%p. -/
def pIMpn (cs : List Char) : Option PTime :=
  firstSome (altsI cs) fun hr =>
    (litP ':' hr.2).bind fun r2 =>
    firstSome (altsMin r2) fun mr =>
      (ampmP mr.2).bind fun pr =>
        if pr.2 = [] then some ⟨hour12to24 hr.1 pr.1, mr.1⟩ else none

/-- strptime with pattern %I %p. -/
def pIp (cs : List Char) : Option PTime :=
  firstSome (altsI cs) fun hr =>
    (wsP hr.2).bind fun r2 =>
    (ampmP r2).bind fun pr =>
      if pr.2 = [] then some ⟨hour12to24 hr.1 pr.1, 0⟩ else none

/-- strptime with pattern %I%p. -/
def pIpn (cs : List Char) : Option PTime :=
  firstSome (altsI cs) fun hr =>
    (ampmP hr.2).bind fun pr =>
      if pr.2 = [] then some ⟨hour12to24 hr.1 pr.1, 0⟩ else none

/-- The ordered date-format cascade of AppointmentPlugin._parse_datetime. -/
def dateFormats : List String :=
  ["%Y-%m-%d", "%m/%d/%Y", "%m-%d-%Y", "%B %d, %Y", "%b %d, %Y"]

/-- The ordered time-format cascade of AppointmentPlugin._parse_datetime. -/
def timeFormats : List String :=
  ["%H:%M", "%I:%M %p", "%I:%M%p", "%I %p", "%I%p"]

/-- datetime.strptime(s, fmt).date() for the five date patterns the backend
uses. -/
def strptimeDateF (fmt : String) (cs : List Char) : Option PDate :=
  if fmt = "%Y-%m-%d" then pYmd cs
  else if fmt = "%m/%d/%Y" then pMdYs cs
  else if fmt = "%m-%d-%Y" then pMdYd cs
  else if fmt = "%B %d, %Y" then pBdY cs
  else if fmt = "%b %d, %Y" then pbdY cs
  else none

/-- datetime.strptime(s, fmt).time() for the five time patterns the backend
uses. -/
def strptimeTimeF (fmt : String) (cs : List Char) : Option PTime :=
  if fmt = "%H:%M" then pHM cs
  else if fmt = "%I:%M %p" then pIMp cs
  else if fmt = "%I:%M%p" then pIMpn cs
  else if fmt = "%I %p" then pIp cs
  else if fmt = "%I%p" then pIpn cs
  else none

/-- First date format that parses, as in the source's for-loop. -/
def tryDateFormats : List String → List Char → Option PDate
  | [], _ => none
  | f :: rest, cs =>
    match strptimeDateF f cs with
    | some d => some d
    | none => tryDateFormats rest cs

/-- First time format that parses, as in the source's for-loop. -/
def tryTimeFormats : List String → List Char → Option PTime
  | [], _ => none
  | f :: rest, cs =>
    match strptimeTimeF f cs with
    | some t => some t
    | none => tryTimeFormats rest cs

/-- AppointmentPlugin._parse_datetime: strip both inputs, try the date
cascade then the time cascade; any failure raises, modelled as none. -/
def parseDatetime (ds ts : String) : Option PDateTime :=
  match tryDateFormats dateFormats (stripChars ds.toList) with
  | none => none
  | some d =>
    match tryTimeFormats timeFormats (stripChars ts.toList) with
    | none => none
    | some t => some ⟨d, t⟩

/-- The process-level call site passes data.get('date') and
data.get('time'); a missing field makes .strip() raise, which the caller's
try/except turns into the same parse-failure path. -/
def parseDatetimeOpt (ds ts : Option String) : Option PDateTime :=
  match ds, ts with
  | some d, some t => parseDatetime d t
  | _, _ => none

/-- Capitalised full month names, as rendered by strftime %B. -/
def monthNamesCap : List String :=
  ["January", "February", "March", "April", "May", "June", "July",
   "August", "September", "October", "November", "December"]

/-- Capitalised abbreviated month names, as rendered by strftime %b. -/
def monthNamesAbbrevCap : List String :=
  ["Jan", "Feb", "Mar", "Apr", "May", "Jun", "Jul", "Aug", "Sep", "Oct",
   "Nov", "Dec"]

/-- Month name characters for a 1-based month number. -/
def monthCapChars (m : Nat) : List Char :=
  (monthNamesCap.getD (m - 1) "").toList

/-- Abbreviated month name characters for a 1-based month number. -/
def monthAbbrevChars (m : Nat) : List Char :=
  (monthNamesAbbrevCap.getD (m - 1) "").toList

/-- 12-hour clock hour, as rendered by strftime %I. -/
def hour12 (h : Nat) : Nat := if h % 12 = 0 then 12 else h % 12

/-- strftime %p under the C locale. -/
def ampmCharsOf (h : Nat) : List Char := if h < 12 then ['A', 'M'] else ['P', 'M']

/-- Characters of strftime(fmt) for the five supported date patterns
(model of the Python standard library's formatter, the inverse direction of
the round-trip property). -/
def strftimeDateChars (fmt : String) (d : PDate) : List Char :=
  if fmt = "%Y-%m-%d" then
    pad4 d.year ++ '-' :: (pad2 d.month ++ '-' :: pad2 d.day)
  else if fmt = "%m/%d/%Y" then
    pad2 d.month ++ '/' :: (pad2 d.day ++ '/' :: pad4 d.year)
  else if fmt = "%m-%d-%Y" then
    pad2 d.month ++ '-' :: (pad2 d.day ++ '-' :: pad4 d.year)
  else if fmt = "%B %d, %Y" then
    monthCapChars d.month ++ ' ' :: (pad2 d.day ++ ',' :: ' ' :: pad4 d.year)
  else if fmt = "%b %d, %Y" then
    monthAbbrevChars d.month ++ ' ' :: (pad2 d.day ++ ',' :: ' ' :: pad4 d.year)
  else []

/-- strftime for the five supported date patterns, as a string. -/
def strftimeDate (fmt : String) (d : PDate) : String :=
  ⟨strftimeDateChars fmt d⟩

/-- Characters of strftime(fmt) for the five supported time patterns. -/
def strftimeTimeChars (fmt : String) (t : PTime) : List Char :=
  if fmt = "%H:%M" then pad2 t.hour ++ ':' :: pad2 t.minute
  else if fmt = "%I:%M %p" then
    pad2 (hour12 t.hour) ++ ':' :: (pad2 t.minute ++ ' ' :: ampmCharsOf t.hour)
  else if fmt = "%I:%M%p" then
    pad2 (hour12 t.hour) ++ ':' :: (pad2 t.minute ++ ampmCharsOf t.hour)
  else if fmt = "%I %p" then
    pad2 (hour12 t.hour) ++ ' ' :: ampmCharsOf t.hour
  else if fmt = "%I%p" then pad2 (hour12 t.hour) ++ ampmCharsOf t.hour
  else []

/-- strftime for the five supported time patterns, as a string. -/
def strftimeTime (fmt : String) (t : PTime) : String :=
  ⟨strftimeTimeChars fmt t⟩

/-- Cumulative days before a month in a non-leap year. -/
def daysBeforeMonth (m : Nat) : Nat :=
  match m with
  | 1 => 0 | 2 => 31 | 3 => 59 | 4 => 90 | 5 => 120 | 6 => 151 | 7 => 181
  | 8 => 212 | 9 => 243 | 10 => 273 | 11 => 304 | _ => 334

/-- Days since 0001-01-01 of the proleptic Gregorian calendar (which was a
Monday, so weekday index = dayNumber % 7 with Monday = 0, matching Python's
date.weekday()). -/
def dayNumber (d : PDate) : Nat :=
  365 * (d.year - 1) +
    ((d.year - 1) / 4 - (d.year - 1) / 100 + (d.year - 1) / 400) +
    daysBeforeMonth d.month +
    (if isLeapYear d.year ∧ 3 ≤ d.month then 1 else 0) +
    (d.day - 1)

/-- Minutes since the epoch for a parsed datetime; the linear instants all
scheduling comparisons run on. -/
def toMinutes (dt : PDateTime) : Nat :=
  dayNumber dt.date * 1440 + dt.time.hour * 60 + dt.time.minute

/-- Lower-case weekday names indexed by Python's weekday() (Monday = 0),
the keys of the business_hours configuration dict. -/
def weekdayNamesLower : List String :=
  ["monday", "tuesday", "wednesday", "thursday", "friday", "saturday",
   "sunday"]

/-- Capitalised weekday names, as rendered by strftime %A. -/
def weekdayNamesCap : List String :=
  ["Monday", "Tuesday", "Wednesday", "Thursday", "Friday", "Saturday",
   "Sunday"]

/-- now.strftime('%A').lower() for a day number. -/
def weekdayNameOfDay (day : Nat) : String :=
  weekdayNamesLower.getD (day % 7) ""

/-- Inverse of dayNumber (the civil-from-days algorithm); used only to
render dates inside human-facing message strings. -/
def civilFromDays (n : Nat) : PDate :=
  let z := n + 306
  let era := z / 146097
  let doe := z % 146097
  let yoe := (doe - doe / 1460 + doe / 36524 - doe / 146096) / 365
  let y := yoe + era * 400
  let doy := doe - (365 * yoe + yoe / 4 - yoe / 100)
  let mp := (5 * doy + 2) / 153
  let dd := doy - (153 * mp + 2) / 5 + 1
  let m := if mp < 10 then mp + 3 else mp - 9
  if m ≤ 2 then ⟨y + 1, m, dd⟩ else ⟨y, m, dd⟩

/-- String from a character list, spelled out for readability. -/
def strOf (l : List Char) : String := ⟨l⟩

/-- Decimal digit characters of a Nat (fuel-based so that kernel reduction
works); natToStr n uses fuel n+1 which always suffices. -/
def natCharsAux : Nat → Nat → List Char
  | 0, _ => []
  | fuel + 1, n =>
    if n < 10 then [digitChar n]
    else natCharsAux fuel (n / 10) ++ [digitChar (n % 10)]

/-- str(n) for a Nat. -/
def natToStr (n : Nat) : String := ⟨natCharsAux (n + 1) n⟩

/-- dt.strftime('%A, %B %d at %I:%M %p'), the display format of
AppointmentPlugin._format_datetime, applied to a minute instant. -/
def formatDatetimeMin (t : Nat) : String :=
  let day := t / 1440
  let tod := t % 1440
  let h := tod / 60
  let mi := tod % 60
  let d := civilFromDays day
  weekdayNamesCap.getD (day % 7) "" ++ ", " ++
    monthNamesCap.getD (d.month - 1) "" ++ " " ++ strOf (pad2 d.day) ++
    " at " ++ strOf (pad2 (hour12 h)) ++ ":" ++ strOf (pad2 mi) ++ " " ++
    (if h < 12 then "AM" else "PM")

/-- timeObj.strftime('%I:%M %p').lstrip('0'), used in after-hours
messages; the argument is a minute-of-day. -/
def fmt12lstrip (tod : Nat) : String :=
  let h := tod / 60
  let mi := tod % 60
  let h12 := hour12 h
  (if h12 < 10 then strOf [digitChar h12] else strOf (pad2 h12)) ++ ":" ++
    strOf (pad2 mi) ++ " " ++ (if h < 12 then "AM" else "PM")

/-- One entry of the appointment_types list in the business config; both
keys are read with .get and may be absent. -/
structure AptType where
  name : Option String := none
  duration : Option Nat := none
deriving DecidableEq

/-- The parts of the per-business JSON config that the modelled code reads.
business_hours maps lower-case weekday names to strings like
"09:00-17:00" or "closed". -/
structure Config where
  businessHours : List (String × String) := []
  appointmentTypes : List AptType := []
  businessName : Option String := none
deriving DecidableEq

/-- business_hours.get(day): first matching key of the dict. -/
def lookupHours (cfg : Config) (day : String) : Option String :=
  (cfg.businessHours.find? (fun p => p.1 = day)).map (fun p => p.2)

/-- config.get('business_name', 'us'). -/
def businessNameOf (cfg : Config) : String := cfg.businessName.getD "us"

/-- Python truthiness test on an optional string: None and "" are falsy. -/
def pyFalsy (s : Option String) : Bool :=
  match s with
  | none => true
  | some s => s = ""

/-- Rendering of an optional string inside an f-string: None prints as
"None". -/
def optStr (s : Option String) : String := s.getD "None"

/-- strptime('%H:%M') on one side of a hours string, as minute-of-day. -/
def parseHM (cs : List Char) : Option Nat :=
  (pHM cs).map (fun t => t.hour * 60 + t.minute)

/-- The hours-string parse done inside the try blocks:
open, close = s.split('-'); strptime on each side after strip.  Any
failure (wrong part count or malformed time) is the except path. -/
def parseHours (s : String) : Option (Nat × Nat) :=
  match splitOnChar '-' s.toList with
  | [a, b] =>
    match parseHM (stripChars a), parseHM (stripChars b) with
    | some o, some c => some (o, c)
    | _, _ => none
  | _ => none

/-- Row of the appointments table.  Times are minute instants (the ISO
strings order-isomorphically); status defaults to 'confirmed' on insert. -/
structure Appointment where
  id : Nat
  businessId : String
  customerName : Option String
  phone : Option String
  email : String
  startTime : Nat
  endTime : Nat
  service : Option String
  notes : String
  status : String
deriving DecidableEq

/-- Row of the orders table (total REAL is irrelevant to every claim and is
modelled as an integer payload). -/
structure OrderRow where
  id : Nat
  businessId : String
  customerName : Option String
  phone : Option String
  orderItems : String
  total : Int
  pickupTime : Option String
  deliveryAddress : String
  specialInstructions : String
  status : String
deriving DecidableEq

/-- Row of the messages table. -/
structure MessageRow where
  id : Nat
  businessId : String
  callerName : Option String
  phone : Option String
  message : Option String
  priority : String
  status : String
deriving DecidableEq

/-- The SQLite database state: three tables plus the AUTOINCREMENT
counters (rowids start at 1, rows are kept in rowid order). -/
structure DB where
  appointments : List Appointment := []
  orders : List OrderRow := []
  messages : List MessageRow := []
  nextApptId : Nat := 1
  nextOrderId : Nat := 1
  nextMsgId : Nat := 1
deriving DecidableEq

/-- The empty database produced by init_database. -/
def emptyDB : DB := ⟨[], [], [], 1, 1, 1⟩

/-- The request payload dict, with .get fields (absent = none). -/
structure ReqData where
  customerName : Option String := none
  phone : Option String := none
  email : Option String := none
  date : Option String := none
  time : Option String := none
  service : Option String := none
  notes : Option String := none
  businessId : Option String := none
  startTime : Option String := none
  callerName : Option String := none
  message : Option String := none
  priority : Option String := none
  orderItems : Option String := none
  total : Option Int := none
  pickupTime : Option String := none
  deliveryAddress : Option String := none
  specialInstructions : Option String := none
deriving DecidableEq

/-- One alternative slot: the instant (the stored isoformat string,
order-isomorphically) and its display rendering. -/
structure Alt where
  dt : Nat
  formatted : String
deriving DecidableEq

/-- A plugin result dict. -/
structure Result where
  success : Bool
  message : String := ""
  alternatives : Option (List Alt) := none
  action : Option String := none
  appointmentId : Option String := none
  orderId : Option String := none
  answer : Option String := none
deriving DecidableEq

/-- AppointmentPlugin._get_service_duration.  The loop evaluates
service.lower() on its first iteration, so a None service raises
(AttributeError, uncaught: Except.error) exactly when the catalog list is
nonempty; an empty catalog falls through to the default of 30. -/
def getServiceDuration (service : Option String) :
    List AptType → Except Unit Nat
  | [] => .ok 30
  | t :: rest =>
    match service with
    | none => .error ()
    | some s =>
      if lowerStr (t.name.getD "") = lowerStr s then .ok (t.duration.getD 30)
      else getServiceDuration (some s) rest

/-- The WHERE condition of _check_availability for one stored row
[s1, e1) against the requested [s2, e2), with the source's three
disjuncts and parameter bindings. -/
def sqlConflictB (s1 e1 s2 e2 : Nat) : Bool :=
  (decide (s1 < e2) && decide (e1 > s2)) ||
  (decide (s1 < e2) && decide (e1 > e2)) ||
  (decide (s1 ≥ s2) && decide (e1 ≤ e2))

/-- Full row filter of the conflict query: business match (SQL equality
against a NULL parameter never holds), confirmed status, interval
condition. -/
def apptMatchesConflict (bid : Option String) (s2 e2 : Nat)
    (a : Appointment) : Bool :=
  (match bid with
   | none => false
   | some b => a.businessId = b) &&
  a.status = "confirmed" && sqlConflictB a.startTime a.endTime s2 e2

/-- Constant conflict message of _check_availability. -/
def conflictBookedMsg : String := "I'm sorry, that time is already booked."

/-- AppointmentPlugin._check_availability: fetchone over the conflict
query; a hit yields (False, message), otherwise (True, ""). -/
def checkAvailability (db : DB) (start dur : Nat) (bid : Option String) :
    Bool × String :=
  match db.appointments.find? (apptMatchesConflict bid start (start + dur)) with
  | some _ => (false, conflictBookedMsg)
  | none => (true, "")

/-- AppointmentPlugin._is_within_business_hours: closed / missing / empty
hours reject; a malformed hours string falls open (returns True); else the
start's time-of-day must lie inclusively between open and close. -/
def isWithinBusinessHours (tmin : Nat) (cfg : Config) : Bool :=
  match lookupHours cfg (weekdayNameOfDay (tmin / 1440)) with
  | none => false
  | some s =>
    if s = "" ∨ s = "closed" then false
    else
      match parseHours s with
      | none => true
      | some oc => decide (oc.1 ≤ tmin % 1440) && decide (tmin % 1440 ≤ oc.2)

/-- Constant returned by _get_business_hours_text. -/
def hoursText : String := "Monday-Friday 9am-5pm, Saturday 9am-2pm"

/-- An alternative entry as appended by _find_alternative_times. -/
def mkAlt (t : Nat) : Alt := ⟨t, formatDatetimeMin t⟩

/-- Inner while-loop of _find_alternative_times over one day: walk from
current in 30-minute steps while current+duration fits before end_of_day,
appending available slots; the Bool is true when the len >= 5 early return
fired.  Fuel is endOfDay+1-current at the call site, always enough. -/
def scanSlots (db : DB) (dur : Nat) (bid : Option String) (endOfDay : Nat) :
    Nat → Nat → List Alt → List Alt × Bool
  | 0, _, acc => (acc, false)
  | fuel + 1, current, acc =>
    if current + dur ≤ endOfDay then
      if (checkAvailability db current dur bid).1 then
        let acc2 := acc ++ [mkAlt current]
        if 5 ≤ acc2.length then (acc2, true)
        else scanSlots db dur bid endOfDay fuel (current + 30) acc2
      else scanSlots db dur bid endOfDay fuel (current + 30) acc
    else (acc, false)

/-- Outer day loop of _find_alternative_times: for each day offset, skip
closed/missing/unparseable hours, else scan the day's slots; the early
return propagates. -/
def scanDays (db : DB) (cfg : Config) (dur : Nat) (bid : Option String)
    (baseDay : Nat) : List Nat → List Alt → List Alt
  | [], acc => acc
  | off :: rest, acc =>
    let day := baseDay + off
    match lookupHours cfg (weekdayNameOfDay day) with
    | none => scanDays db cfg dur bid baseDay rest acc
    | some s =>
      if s = "" ∨ s = "closed" then scanDays db cfg dur bid baseDay rest acc
      else
        match parseHours s with
        | none => scanDays db cfg dur bid baseDay rest acc
        | some oc =>
          let startT := day * 1440 + oc.1
          let endOfDay := day * 1440 + oc.2
          let r := scanSlots db dur bid endOfDay (endOfDay + 1 - startT)
            startT acc
          if r.2 then r.1 else scanDays db cfg dur bid baseDay rest r.1

/-- AppointmentPlugin._find_alternative_times: scan the requested date and
the following six days. -/
def findAlternativeTimes (requested dur : Nat) (bid : Option String)
    (db : DB) (cfg : Config) : List Alt :=
  scanDays db cfg dur bid (requested / 1440) [0, 1, 2, 3, 4, 5, 6] []

/-- AppointmentPlugin._book_appointment: INSERT with status defaulting to
'confirmed'; a NULL business_id violates the NOT NULL constraint and
raises. -/
def bookAppointment (d : ReqData) (start dur : Nat) (db : DB) :
    Except Unit (String × DB) :=
  match d.businessId with
  | none => .error ()
  | some b =>
    let a : Appointment :=
      { id := db.nextApptId, businessId := b,
        customerName := d.customerName, phone := d.phone,
        email := d.email.getD "", startTime := start,
        endTime := start + dur, service := d.service,
        notes := d.notes.getD "", status := "confirmed" }
    .ok ("apt_" ++ natToStr db.nextApptId,
      { db with appointments := db.appointments ++ [a],
                nextApptId := db.nextApptId + 1 })

/-- Parse-failure reprompt of AppointmentPlugin.process. -/
def repromptMsg : String :=
  "I couldn't understand that date or time. Could you please repeat it? For example, 'November 5th at 2:30 PM'?"

/-- Hours-rejection message of AppointmentPlugin.process. -/
def hoursRejectMsg : String :=
  "I'm sorry, we're not open at that time. Our hours are " ++ hoursText ++
    ". Would you like to schedule during our open hours?"

/-- Callback-promise tail used when no alternatives were found. -/
def callbackTail : String :=
  " Let me take your information and we'll call you back to find a time that works."

/-- AppointmentPlugin.process.  Only the _parse_datetime call sits inside
a try/except; exceptions elsewhere (service None with a nonempty catalog,
NULL business id on insert) propagate to the webhook as protocol errors,
modelled as Except.error. -/
def process (d : ReqData) (cfg : Config) (db : DB) :
    Except Unit (Result × DB) :=
  match parseDatetimeOpt d.date d.time with
  | none => .ok ({ success := false, message := repromptMsg }, db)
  | some dt =>
    match getServiceDuration d.service cfg.appointmentTypes with
    | .error e => .error e
    | .ok dur =>
      let tmin := toMinutes dt
      if isWithinBusinessHours tmin cfg then
        match checkAvailability db tmin dur d.businessId with
        | (true, _) =>
          match bookAppointment d tmin dur db with
          | .error e => .error e
          | .ok (aid, db2) =>
            .ok ({ success := true,
                   message := "Perfect! I've scheduled your " ++
                     optStr d.service ++ " for " ++ formatDatetimeMin tmin ++
                     ". We'll see you then!",
                   appointmentId := some aid }, db2)
        | (false, cmsg) =>
          let alts := findAlternativeTimes tmin dur d.businessId db cfg
          let msg :=
            if alts.isEmpty then cmsg ++ callbackTail
            else cmsg ++ " I have these times available: " ++
              String.intercalate ", " ((alts.take 3).map Alt.formatted) ++
              ". Which works better for you?"
          .ok ({ success := false, message := msg,
                 alternatives := some alts,
                 action := some "suggest_alternatives" }, db)
      else .ok ({ success := false, message := hoursRejectMsg }, db)

/-- Row filter of CancellationPlugin's SELECT: name and phone equality
(NULL columns never match). -/
def cancelMatches (n p : String) (a : Appointment) : Bool :=
  a.customerName = some n && a.phone = some p

/-- CancellationPlugin.process: validate name+phone truthiness, find the
first matching row (any business), hard-delete it by id, echo the
caller-supplied start_time in the confirmation. -/
def cancelProcess (d : ReqData) (db : DB) : Result × DB :=
  if pyFalsy d.customerName || pyFalsy d.phone then
    ({ success := false, message := "Missing details. Provide name and phone." }, db)
  else
    match db.appointments.find?
        (cancelMatches (d.customerName.getD "") (d.phone.getD "")) with
    | none => ({ success := false, message := "No matching appointment found." }, db)
    | some row =>
      ({ success := true,
         message := "Your appointment at " ++ optStr d.startTime ++
           " has been canceled successfully." },
       { db with appointments :=
           db.appointments.filter (fun a => a.id != row.id) })

/-- OrderPlugin.process: unconditionally INSERT the order and confirm. -/
def orderProcess (d : ReqData) (db : DB) : Except Unit (Result × DB) :=
  match d.businessId with
  | none => .error ()
  | some b =>
    let row : OrderRow :=
      { id := db.nextOrderId, businessId := b,
        customerName := d.customerName, phone := d.phone,
        orderItems := d.orderItems.getD "", total := d.total.getD 0,
        pickupTime := d.pickupTime,
        deliveryAddress := d.deliveryAddress.getD "",
        specialInstructions := d.specialInstructions.getD "",
        status := "pending" }
    .ok ({ success := true,
           message := "Great! Your order is confirmed for pickup at " ++
             optStr d.pickupTime ++ ". Order number #" ++
             natToStr db.nextOrderId ++ ".",
           orderId := some ("order_" ++ natToStr db.nextOrderId) },
      { db with orders := db.orders ++ [row],
                nextOrderId := db.nextOrderId + 1 })

/-- MessagePlugin.process: unconditionally INSERT the message row. -/
def messageProcess (d : ReqData) (db : DB) : Except Unit (Result × DB) :=
  match d.businessId with
  | none => .error ()
  | some b =>
    let row : MessageRow :=
      { id := db.nextMsgId, businessId := b, callerName := d.callerName,
        phone := d.phone, message := d.message,
        priority := d.priority.getD "normal", status := "new" }
    .ok ({ success := true,
           message := "I've taken your message and someone will get back to you shortly." },
      { db with messages := db.messages ++ [row],
                nextMsgId := db.nextMsgId + 1 })

/-- ASCII upper-casing of one character. -/
def upperChar (c : Char) : Char :=
  if 97 ≤ c.toNat ∧ c.toNat ≤ 122 then Char.ofNat (c.toNat - 32) else c

/-- str.title() on the single-word weekday names the handler feeds it. -/
def titleStr (s : String) : String :=
  match s.toList with
  | [] => ""
  | c :: r => ⟨upperChar c :: r⟩

/-- hours.split('-')[0].strip() parsed as %H:%M, the open-time extraction
inside _get_next_open_day / _get_next_open_time try blocks. -/
def firstPartHM (s : String) : Option Nat :=
  parseHM (stripChars ((splitOnChar '-' s.toList).headD []))

/-- AfterHoursHandler._get_next_open_day: scan the seven following
weekdays (wrapping) for the first open one. -/
def nextOpenFrom (cfg : Config) (currentDayIdx : Nat) : List Nat → String
  | [] => "during our business hours"
  | i :: rest =>
    let dayName := weekdayNamesLower.getD ((currentDayIdx + i) % 7) ""
    match lookupHours cfg dayName with
    | none => nextOpenFrom cfg currentDayIdx rest
    | some h =>
      if h = "" ∨ h = "closed" then nextOpenFrom cfg currentDayIdx rest
      else
        match firstPartHM h with
        | some o => titleStr dayName ++ " at " ++ fmt12lstrip o
        | none => titleStr dayName

/-- _get_next_open_day from a day number. -/
def nextOpenDayStr (cfg : Config) (day : Nat) : String :=
  nextOpenFrom cfg (day % 7) [1, 2, 3, 4, 5, 6, 7]

/-- AfterHoursHandler._get_next_open_time: tomorrow if open, else the
next open day. -/
def nextOpenTimeStr (cfg : Config) (day : Nat) : String :=
  match lookupHours cfg (weekdayNameOfDay (day + 1)) with
  | none => nextOpenDayStr cfg day
  | some h =>
    if h = "" ∨ h = "closed" then nextOpenDayStr cfg day
    else
      match firstPartHM h with
      | some o => "tomorrow at " ++ fmt12lstrip o
      | none => "tomorrow"

/-- AfterHoursHandler._get_closed_message. -/
def closedMsg (cfg : Config) (day : Nat) : String :=
  "Thank you for calling " ++ businessNameOf cfg ++ "! We're closed on " ++
    titleStr (weekdayNameOfDay day) ++ "s. We'll be open " ++
    nextOpenDayStr cfg day ++
    ". I'm happy to take a message or schedule an appointment for when we're open. How can I help you?"

/-- AfterHoursHandler._get_before_open_message. -/
def beforeOpenMsg (cfg : Config) (o : Nat) : String :=
  "Thank you for calling " ++ businessNameOf cfg ++ "! Our office opens at " ++
    fmt12lstrip o ++
    ". I'm here to help right now though - I can schedule an appointment, answer questions, or take a message. What can I do for you?"

/-- AfterHoursHandler._get_after_close_message. -/
def afterCloseMsg (cfg : Config) (day : Nat) : String :=
  "Thank you for calling " ++ businessNameOf cfg ++
    "! Our office is currently closed for the day. We'll be open " ++
    nextOpenTimeStr cfg day ++
    ". I'm here to help - I can schedule an appointment, answer questions, or take a message. How can I assist you?"

/-- AfterHoursHandler.is_after_hours for an explicit "now" instant.
Closed/missing hours classify AFTER_HOURS with the closed message; a
malformed hours string hits the except path and fails open as
(False, ""). -/
def isAfterHours (cfg : Config) (now : Nat) : Bool × String :=
  let day := now / 1440
  match lookupHours cfg (weekdayNameOfDay day) with
  | none => (true, closedMsg cfg day)
  | some h =>
    if h = "" ∨ h = "closed" then (true, closedMsg cfg day)
    else
      match parseHours h with
      | none => (false, "")
      | some oc =>
        if now % 1440 < oc.1 then (true, beforeOpenMsg cfg oc.1)
        else if now % 1440 > oc.2 then (true, afterCloseMsg cfg day)
        else (false, "")

/-- Half-open interval overlap, the spec's conflict relation. -/
def overlapP (s1 e1 s2 e2 : Nat) : Prop := s1 < e2 ∧ s2 < e1

instance overlapP.dec (s1 e1 s2 e2 : Nat) : Decidable (overlapP s1 e1 s2 e2) := by
  unfold overlapP
  exact inferInstance

/-- Two stored rows of the same business may not both be confirmed with
overlapping intervals. -/
def noOverlapPair (a b : Appointment) : Prop :=
  a.businessId = b.businessId → a.status = "confirmed" →
    b.status = "confirmed" →
    ¬ overlapP a.startTime a.endTime b.startTime b.endTime

instance noOverlapPair.dec (a b : Appointment) : Decidable (noOverlapPair a b) := by
  unfold noOverlapPair
  exact inferInstance

instance noOverlapPair.decRel : DecidableRel noOverlapPair :=
  noOverlapPair.dec

/-- The C1 store invariant over the appointments table. -/
def apptInvariant (db : DB) : Prop :=
  db.appointments.Pairwise noOverlapPair

instance apptInvariant.dec (db : DB) : Decidable (apptInvariant db) := by
  unfold apptInvariant
  exact inferInstance

/-- Database states reachable from the fresh database through the four
store-touching operations, each run atomically. -/
inductive Reachable : DB → Prop where
  | init : Reachable emptyDB
  | book : ∀ {db db2 : DB} {d : ReqData} {cfg : Config} {r : Result},
      Reachable db → process d cfg db = .ok (r, db2) → Reachable db2
  | cancel : ∀ {db db2 : DB} {d : ReqData} {r : Result},
      Reachable db → cancelProcess d db = (r, db2) → Reachable db2
  | order : ∀ {db db2 : DB} {d : ReqData} {r : Result},
      Reachable db → orderProcess d db = .ok (r, db2) → Reachable db2
  | msg : ∀ {db db2 : DB} {d : ReqData} {r : Result},
      Reachable db → messageProcess d db = .ok (r, db2) → Reachable db2

/-- The read half of a booking request: all gates up to and including the
conflict query, exactly as process runs them, with no write.  In the real
system this is one SQLite connection. -/
def bookingPreCheckOk (d : ReqData) (cfg : Config) (db : DB) : Bool :=
  match parseDatetimeOpt d.date d.time,
      getServiceDuration d.service cfg.appointmentTypes with
  | some dt, .ok dur =>
    isWithinBusinessHours (toMinutes dt) cfg &&
      (checkAvailability db (toMinutes dt) dur d.businessId).1
  | _, _ => false

/-- The write half of a booking request: the INSERT of _book_appointment,
run on whatever store state exists when it executes (a second, separate
SQLite connection). -/
def bookingCommit (d : ReqData) (cfg : Config) (db : DB) : DB :=
  match parseDatetimeOpt d.date d.time,
      getServiceDuration d.service cfg.appointmentTypes with
  | some dt, .ok dur =>
    match bookAppointment d (toMinutes dt) dur db with
    | .ok pr => pr.2
    | .error _ => db
  | _, _ => db

instance exceptDecEq {ε α : Type} [DecidableEq ε] [DecidableEq α] :
    DecidableEq (Except ε α) := fun a b =>
  match a, b with
  | .ok x, .ok y =>
    if h : x = y then isTrue (by rw [h])
    else isFalse (by intro hc; cases hc; exact h rfl)
  | .error x, .error y =>
    if h : x = y then isTrue (by rw [h])
    else isFalse (by intro hc; cases hc; exact h rfl)
  | .ok _, .error _ => isFalse (by intro hc; cases hc)
  | .error _, .ok _ => isFalse (by intro hc; cases hc)

/-- Monday 2025-11-03 as a day number, used by the concrete scenarios. -/
def monBase : Nat := dayNumber ⟨2025, 11, 3⟩

/-- A weekday-hours configuration used by the concrete scenarios. -/
def cfgMon1 : Config :=
  { businessHours := [("monday", "09:00-17:00")],
    appointmentTypes := [{ name := some "Consultation", duration := some 30 }],
    businessName := some "TestCo" }

/-- A booking request for Monday 2025-11-03 at the given time string. -/
def bookReq (t : String) : ReqData :=
  { customerName := some "Alice", phone := some "555",
    date := some "2025-11-03", time := some t,
    service := some "Consultation", businessId := some "biz1" }

/-- Result and store after booking Monday 16:59 on the empty store (the
slot [16:59, 17:29) extends past closing because only the start instant is
hours-checked). -/
def prC2a : Result × DB :=
  match process (bookReq "16:59") cfgMon1 emptyDB with
  | .ok pr => pr
  | .error _ => ({ success := false }, emptyDB)

/-- A second concurrent booking request for the same Monday 10:00 slot. -/
def bookReqB (t : String) : ReqData :=
  { customerName := some "Bob", phone := some "556",
    date := some "2025-11-03", time := some t,
    service := some "Consultation", businessId := some "biz1" }

/-- A confirmed appointment row for the cancellation scenarios. -/
def apptW (i s e : Nat) : Appointment :=
  { id := i, businessId := "biz1", customerName := some "Alice",
    phone := some "555", email := "", startTime := s, endTime := e,
    service := some "Consultation", notes := "", status := "confirmed" }

/-- A store holding two appointments for the same customer. -/
def dbW9 : DB := ⟨[apptW 1 600 630, apptW 2 700 730], [], [], 3, 1, 1⟩

/-- A store with one confirmed appointment Monday 10:00-10:30. -/
def dbW5 : DB :=
  ⟨[apptW 1 (monBase * 1440 + 600) (monBase * 1440 + 630)], [], [], 2, 1, 1⟩

/-- A configuration closed on Mondays. -/
def cfgClosedMon : Config :=
  { businessHours := [("monday", "closed"), ("tuesday", "09:00-17:00")] }

/-- A configuration whose Monday hours string does not parse as
HH:MM-HH:MM. -/
def cfgBadHours : Config := { businessHours := [("monday", "9am-5pm")] }

/-! Theorems.  Shared helper lemmas come first, then one theorem (plus
counterexample and witness where applicable) per claim. -/

theorem digitVal_le {c : Char} {x : Nat} (h : digitVal c = some x) : x ≤ 9 := by
  unfold digitVal at h
  split at h
  · cases h
    omega
  · cases h

theorem digitVal_digitChar {n : Nat} (h : n < 10) :
    digitVal (digitChar n) = some n := by
  interval_cases n <;> decide

theorem sqlConflictB_iff {s1 e1 s2 e2 : Nat} (h1 : s1 < e1) (h2 : s2 < e2) :
    sqlConflictB s1 e1 s2 e2 = true ↔ (s1 < e2 ∧ s2 < e1) := by
  simp only [sqlConflictB, Bool.or_eq_true, Bool.and_eq_true,
    decide_eq_true_eq]
  omega

theorem overlap_sqlConflictB {s1 e1 s2 e2 : Nat}
    (h : overlapP s1 e1 s2 e2) : sqlConflictB s1 e1 s2 e2 = true := by
  obtain ⟨ha, hb⟩ := h
  simp only [sqlConflictB, Bool.or_eq_true, Bool.and_eq_true,
    decide_eq_true_eq]
  omega

theorem no_overlap_of_sqlConflictB_false {s1 e1 s2 e2 : Nat}
    (h : sqlConflictB s1 e1 s2 e2 = false) : ¬ overlapP s1 e1 s2 e2 := by
  intro hov
  rw [overlap_sqlConflictB hov] at h
  cases h

theorem apptMatchesConflict_iff {b : String} {s2 e2 : Nat}
    {a : Appointment} :
    apptMatchesConflict (some b) s2 e2 a = true ↔
      (a.businessId = b ∧ a.status = "confirmed" ∧
        sqlConflictB a.startTime a.endTime s2 e2 = true) := by
  simp [apptMatchesConflict, and_assoc]

theorem checkAvailability_fst_false_iff {db : DB} {start dur : Nat}
    {bid : Option String} :
    (checkAvailability db start dur bid).1 = false ↔
      ∃ a ∈ db.appointments,
        apptMatchesConflict bid start (start + dur) a = true := by
  unfold checkAvailability
  cases hf : db.appointments.find? (apptMatchesConflict bid start (start + dur)) with
  | none =>
    simp only [List.find?_eq_none] at hf
    constructor
    · intro h
      cases h
    · rintro ⟨a, ha, hc⟩
      exact absurd hc (hf a ha)
  | some a =>
    simp only [true_iff]
    exact ⟨a, List.mem_of_find?_eq_some hf, List.find?_some hf⟩

theorem checkAvailability_eq_false {db : DB} {start dur : Nat}
    {bid : Option String}
    (h : (checkAvailability db start dur bid).1 = false) :
    checkAvailability db start dur bid = (false, conflictBookedMsg) := by
  unfold checkAvailability at h ⊢
  cases hf : db.appointments.find? (apptMatchesConflict bid start (start + dur)) with
  | none => rw [hf] at h; cases h
  | some a => rfl

theorem checkAvailability_eq_true {db : DB} {start dur : Nat}
    {bid : Option String}
    (h : (checkAvailability db start dur bid).1 = true) :
    checkAvailability db start dur bid = (true, "") := by
  unfold checkAvailability at h ⊢
  cases hf : db.appointments.find? (apptMatchesConflict bid start (start + dur)) with
  | none => rfl
  | some a => rw [hf] at h; cases h

/-- Claim C4: the conflict test uses half-open semantics.  For stores of
well-formed (positive-length) appointments and a positive requested
duration, the availability query reports a conflict exactly when some
confirmed appointment of the business satisfies s1 < e2 and s2 < e1; a
row whose end equals the requested start never matches, and when every
confirmed row of the business ends exactly at the requested start the
slot is reported available (back-to-back accepted). -/
theorem c4_halfopen_conflict (db : DB) (b : String) (s2 dur : Nat)
    (hwf : ∀ a ∈ db.appointments, a.startTime < a.endTime)
    (hdur : 0 < dur) :
    ((checkAvailability db s2 dur (some b)).1 = false ↔
      ∃ a ∈ db.appointments, a.businessId = b ∧ a.status = "confirmed" ∧
        a.startTime < s2 + dur ∧ s2 < a.endTime) ∧
    (∀ a ∈ db.appointments, a.businessId = b → a.status = "confirmed" →
      a.endTime = s2 →
      apptMatchesConflict (some b) s2 (s2 + dur) a = false) ∧
    ((∀ a ∈ db.appointments, a.status = "confirmed" → a.businessId = b →
        a.endTime = s2) →
      (checkAvailability db s2 dur (some b)).1 = true) := by
  have hiff : ∀ a ∈ db.appointments,
      (apptMatchesConflict (some b) s2 (s2 + dur) a = true ↔
        (a.businessId = b ∧ a.status = "confirmed" ∧
          a.startTime < s2 + dur ∧ s2 < a.endTime)) := by
    intro a ha
    rw [apptMatchesConflict_iff,
      sqlConflictB_iff (hwf a ha) (by omega)]
  refine ⟨?_, ?_, ?_⟩
  · rw [checkAvailability_fst_false_iff]
    constructor
    · rintro ⟨a, ha, hm⟩
      exact ⟨a, ha, (hiff a ha).mp hm⟩
    · rintro ⟨a, ha, hm⟩
      exact ⟨a, ha, (hiff a ha).mpr hm⟩
  · intro a ha hb hs he
    by_contra hne
    have : apptMatchesConflict (some b) s2 (s2 + dur) a = true := by
      cases hx : apptMatchesConflict (some b) s2 (s2 + dur) a
      · exact absurd hx hne
      · rfl
    have := (hiff a ha).mp this
    omega
  · intro hall
    cases hx : (checkAvailability db s2 dur (some b)).1
    · exfalso
      obtain ⟨a, ha, hm⟩ := checkAvailability_fst_false_iff.mp hx
      obtain ⟨hb, hs, h1, h2⟩ := (hiff a ha).mp hm
      have := hall a ha hs hb
      omega
    · rfl


/-- Claim C4 witness at a concrete store and request. -/
theorem c4_halfopen_conflict_witness :
    (checkAvailability dbW9 630 30 (some "biz1")).1 = false ↔
      ∃ a ∈ dbW9.appointments, a.businessId = "biz1" ∧
        a.status = "confirmed" ∧ a.startTime < 630 + 30 ∧ 630 < a.endTime :=
  (c4_halfopen_conflict dbW9 "biz1" 630 30 (by decide) (by decide)).1

/-- Claim C6: the hours check rejects a closed weekday, is an inclusive
open <= time-of-day <= close test when the day's hours parse, and a
failing hours check short-circuits process before the conflict query: the
result is the fixed hours rejection and the store (any store) is returned
untouched, with no alternatives and no action. -/
theorem c6_hours_gate :
    (∀ (cfg : Config) (tmin : Nat),
      lookupHours cfg (weekdayNameOfDay (tmin / 1440)) = some "closed" →
        isWithinBusinessHours tmin cfg = false) ∧
    (∀ (cfg : Config) (tmin : Nat) (s : String) (o c : Nat),
      lookupHours cfg (weekdayNameOfDay (tmin / 1440)) = some s →
      parseHours s = some (o, c) →
      (isWithinBusinessHours tmin cfg = true ↔
        (o ≤ tmin % 1440 ∧ tmin % 1440 ≤ c))) ∧
    (∀ (d : ReqData) (cfg : Config) (db : DB) (dt : PDateTime) (dur : Nat),
      parseDatetimeOpt d.date d.time = some dt →
      getServiceDuration d.service cfg.appointmentTypes = .ok dur →
      isWithinBusinessHours (toMinutes dt) cfg = false →
      process d cfg db = .ok ({ success := false, message := hoursRejectMsg }, db)) := by
  refine ⟨?_, ?_, ?_⟩
  · intro cfg tmin h
    simp [isWithinBusinessHours, h]
  · intro cfg tmin s o c h1 h2
    have hs1 : s ≠ "" := by
      rintro rfl
      have : parseHours "" = none := by decide
      rw [this] at h2
      cases h2
    have hs2 : s ≠ "closed" := by
      rintro rfl
      have : parseHours "closed" = none := by decide
      rw [this] at h2
      cases h2
    simp [isWithinBusinessHours, h1, h2, hs1, hs2]
  · intro d cfg db dt dur h1 h2 h3
    simp [process, h1, h2, h3]

/-- Claim C6 witness at concrete configurations and instants. -/
theorem c6_hours_gate_witness :
    isWithinBusinessHours (monBase * 1440 + 600) cfgClosedMon = false ∧
    (isWithinBusinessHours (monBase * 1440 + 600) cfgMon1 = true ↔
      (540 ≤ (monBase * 1440 + 600) % 1440 ∧
        (monBase * 1440 + 600) % 1440 ≤ 1020)) ∧
    process (bookReq "08:00") cfgMon1 emptyDB =
      .ok ({ success := false, message := hoursRejectMsg }, emptyDB) :=
  ⟨c6_hours_gate.1 cfgClosedMon (monBase * 1440 + 600) (by decide),
   c6_hours_gate.2.1 cfgMon1 (monBase * 1440 + 600) "09:00-17:00" 540 1020
     (by decide) (by decide),
   c6_hours_gate.2.2 (bookReq "08:00") cfgMon1 emptyDB
     ⟨⟨2025, 11, 3⟩, ⟨8, 0⟩⟩ 30 (by decide) (by decide) (by decide)⟩

/-- Claim C7: a present, non-closed hours string that fails to parse makes
the after-hours resolver classify the instant OPEN with an empty message,
and makes the scheduling hours check treat the instant as within hours;
neither path propagates an error. -/
theorem c7_hours_failopen :
    (∀ (cfg : Config) (now : Nat) (s : String),
      lookupHours cfg (weekdayNameOfDay (now / 1440)) = some s → s ≠ "" →
      s ≠ "closed" → parseHours s = none →
      isAfterHours cfg now = (false, "")) ∧
    (∀ (cfg : Config) (tmin : Nat) (s : String),
      lookupHours cfg (weekdayNameOfDay (tmin / 1440)) = some s → s ≠ "" →
      s ≠ "closed" → parseHours s = none →
      isWithinBusinessHours tmin cfg = true) := by
  constructor
  · intro cfg now s h1 hs1 hs2 h2
    simp [isAfterHours, h1, h2, hs1, hs2]
  · intro cfg tmin s h1 hs1 hs2 h2
    simp [isWithinBusinessHours, h1, h2, hs1, hs2]

/-- Claim C7 witness: hours string "9am-5pm" (not HH:MM-HH:MM). -/
theorem c7_hours_failopen_witness :
    isAfterHours cfgBadHours (monBase * 1440 + 600) = (false, "") ∧
    isWithinBusinessHours (monBase * 1440 + 600) cfgBadHours = true :=
  ⟨c7_hours_failopen.1 cfgBadHours (monBase * 1440 + 600) "9am-5pm"
     (by decide) (by decide) (by decide) (by decide),
   c7_hours_failopen.2 cfgBadHours (monBase * 1440 + 600) "9am-5pm"
     (by decide) (by decide) (by decide) (by decide)⟩


theorem filter_ne_id_of_nodup (pre post : List Appointment)
    (row : Appointment)
    (hnd : ((pre ++ row :: post).map (fun a => a.id)).Nodup) :
    (pre ++ row :: post).filter (fun a => a.id != row.id) = pre ++ post := by
  rw [List.map_append, List.nodup_append] at hnd
  obtain ⟨h1, h2, h3⟩ := hnd
  have hpre : ∀ x ∈ pre, x.id ≠ row.id := by
    intro x hx he
    exact h3 (List.mem_map_of_mem (fun a => a.id) hx)
      (by rw [he]; simp) 
  have hpost : ∀ x ∈ post, x.id ≠ row.id := by
    rw [List.map_cons, List.nodup_cons] at h2
    intro x hx he
    exact h2.1 (by rw [← he]; exact List.mem_map_of_mem (fun a => a.id) hx)
  rw [List.filter_append]
  have e1 : pre.filter (fun a => a.id != row.id) = pre :=
    List.filter_eq_self.mpr (fun a ha => by simp [hpre a ha])
  have e2 : (row :: post).filter (fun a => a.id != row.id) = post := by
    rw [List.filter_cons_of_neg (by simp)]
    exact List.filter_eq_self.mpr (fun a ha => by simp [hpost a ha])
  rw [e1, e2]

/-- Claim C9: cancellation returns a validation failure with the store
untouched when name or phone is absent; a zero-match lookup returns the
not-found failure with the store untouched; a match hard-deletes exactly
the first matching row (in rowid order, given unique row ids) and echoes
the caller-supplied start_time string verbatim in the confirmation. -/
theorem c9_cancellation (d : ReqData) (db : DB) :
    ((d.customerName = none ∨ d.phone = none) →
      cancelProcess d db =
        ({ success := false,
           message := "Missing details. Provide name and phone." }, db)) ∧
    (∀ n p, d.customerName = some n → d.phone = some p → n ≠ "" → p ≠ "" →
      ((∀ a ∈ db.appointments, cancelMatches n p a = false) →
        cancelProcess d db =
          ({ success := false,
             message := "No matching appointment found." }, db)) ∧
      (∀ st row pre post, d.startTime = some st →
        db.appointments = pre ++ row :: post →
        (∀ x ∈ pre, cancelMatches n p x = false) →
        cancelMatches n p row = true →
        (db.appointments.map (fun a => a.id)).Nodup →
        cancelProcess d db =
          ({ success := true,
             message := "Your appointment at " ++ st ++
               " has been canceled successfully." },
           { db with appointments := pre ++ post }))) := by
  constructor
  · intro h
    rcases h with h | h <;> simp [cancelProcess, h, pyFalsy]
  · intro n p hn hp hne1 hne2
    have hfal : (pyFalsy d.customerName || pyFalsy d.phone) = false := by
      simp [pyFalsy, hn, hp, hne1, hne2]
    constructor
    · intro hall
      have hfind : db.appointments.find? (cancelMatches n p) = none :=
        List.find?_eq_none.mpr (fun x hx => by simp [hall x hx])
      simp [cancelProcess, hfal, hn, hp, hfind, pyFalsy, hne1, hne2]
    · intro st row pre post hst hsplit hpre hrow hnd
      have hfind : db.appointments.find? (cancelMatches n p) = some row :=
        List.find?_eq_some.mpr
          ⟨hrow, pre, post, hsplit, fun a ha => by simp [hpre a ha]⟩
      have hfilter : db.appointments.filter (fun a => a.id != row.id) =
          pre ++ post := by
        rw [hsplit]
        exact filter_ne_id_of_nodup pre post row (by rw [← hsplit]; exact hnd)
      simp [cancelProcess, hfal, hn, hp, hfind, hfilter, hst, optStr, pyFalsy, hne1, hne2]

/-- Claim C9 witness: the three branches on a concrete two-row store. -/
theorem c9_cancellation_witness :
    cancelProcess { customerName := some "Alice" } dbW9 =
      ({ success := false,
         message := "Missing details. Provide name and phone." }, dbW9) ∧
    cancelProcess { customerName := some "Zed", phone := some "000" } dbW9 =
      ({ success := false,
         message := "No matching appointment found." }, dbW9) ∧
    cancelProcess
        { customerName := some "Alice", phone := some "555",
          startTime := some "10:00 AM" } dbW9 =
      ({ success := true,
         message := "Your appointment at " ++ "10:00 AM" ++
           " has been canceled successfully." },
       { dbW9 with appointments := [] ++ [apptW 2 700 730] }) :=
  ⟨(c9_cancellation { customerName := some "Alice" } dbW9).1 (Or.inr rfl),
   ((c9_cancellation { customerName := some "Zed", phone := some "000" }
       dbW9).2 "Zed" "000" rfl rfl (by decide) (by decide)).1 (by decide),
   ((c9_cancellation
       { customerName := some "Alice", phone := some "555",
         startTime := some "10:00 AM" } dbW9).2 "Alice" "555" rfl rfl
       (by decide) (by decide)).2 "10:00 AM" (apptW 1 600 630) []
       [apptW 2 700 730] rfl rfl (by decide) (by decide) (by decide)⟩

/-- Claim C10 (amended): when the date and time parse, the service field
is None and the configured appointment-type catalog is nonempty, the
duration loop calls .lower() on None and the uncaught exception surfaces
as a protocol-level error instead of a structured result. -/
theorem c10_service_none_raises (d : ReqData) (cfg : Config) (db : DB)
    (dt : PDateTime) (h1 : parseDatetimeOpt d.date d.time = some dt)
    (h2 : d.service = none) (h3 : cfg.appointmentTypes ≠ []) :
    process d cfg db = .error () := by
  obtain ⟨t, rest, hts⟩ : ∃ t rest, cfg.appointmentTypes = t :: rest := by
    cases hx : cfg.appointmentTypes with
    | nil => exact absurd hx h3
    | cons t r => exact ⟨t, r, rfl⟩
  have hdur : getServiceDuration d.service cfg.appointmentTypes = .error () := by
    rw [hts, h2]
    rfl
  simp [process, h1, hdur]

/-- Claim C10 counterexample: with an empty appointment-type catalog the
duration loop never runs, so a parse-clean request with service None does
NOT raise — the handler returns a structured result, refuting the claim
as universally stated. -/
theorem c10_counterexample :
    ({ date := some "2025-11-03", time := some "10:00",
       businessId := some "biz1" } : ReqData).service = none ∧
    ({ businessHours := [("monday", "09:00-17:00")] } : Config).appointmentTypes = [] ∧
    process
        { date := some "2025-11-03", time := some "10:00",
          businessId := some "biz1" }
        { businessHours := [("monday", "09:00-17:00")] } emptyDB ≠
      .error () :=
  ⟨rfl, rfl, by decide⟩

/-- Claim C10 witness for the amended theorem at a concrete request. -/
theorem c10_service_none_raises_witness :
    process
        { date := some "2025-11-03", time := some "10:00",
          businessId := some "biz1" } cfgMon1 emptyDB = .error () :=
  c10_service_none_raises
    { date := some "2025-11-03", time := some "10:00",
      businessId := some "biz1" } cfgMon1 emptyDB
    ⟨⟨2025, 11, 3⟩, ⟨10, 0⟩⟩ (by decide) rfl (by decide)


/-- Claim C3: the conflict-check-then-insert sequence is NOT atomic in the
code (the SELECT and the INSERT run on two separate SQLite connections
with no lock or transaction spanning them), so the interleaving
check1-check2-insert1-insert2 of two overlapping booking requests passes
both conflict checks against the same initial store and commits both
rows, violating the no-overlap invariant the spec requires. -/
theorem c3_race_not_atomic :
    bookingPreCheckOk (bookReq "10:00") cfgMon1 emptyDB = true ∧
    bookingPreCheckOk (bookReqB "10:00") cfgMon1 emptyDB = true ∧
    ¬ apptInvariant
        (bookingCommit (bookReqB "10:00") cfgMon1
          (bookingCommit (bookReq "10:00") cfgMon1 emptyDB)) :=
  ⟨by decide, by decide, by decide⟩


theorem checkAvailability_true_no_match {db : DB} {start dur : Nat}
    {bid : Option String}
    (h : (checkAvailability db start dur bid).1 = true) :
    ∀ x ∈ db.appointments,
      apptMatchesConflict bid start (start + dur) x = false := by
  intro x hx
  cases hm : apptMatchesConflict bid start (start + dur) x
  · rfl
  · exfalso
    have : (checkAvailability db start dur bid).1 = false :=
      checkAvailability_fst_false_iff.mpr ⟨x, hx, hm⟩
    rw [h] at this
    cases this

theorem process_appointments {d : ReqData} {cfg : Config} {db db2 : DB}
    {r : Result} (h : process d cfg db = .ok (r, db2)) :
    db2.appointments = db.appointments ∨
    ∃ a, db2.appointments = db.appointments ++ [a] ∧
      a.status = "confirmed" ∧
      ∀ x ∈ db.appointments,
        apptMatchesConflict (some a.businessId) a.startTime a.endTime x
          = false := by
  unfold process at h
  cases hp : parseDatetimeOpt d.date d.time with
  | none =>
    rw [hp] at h
    simp only [Except.ok.injEq, Prod.mk.injEq] at h
    exact Or.inl (by rw [← h.2])
  | some dt =>
    rw [hp] at h
    cases hd : getServiceDuration d.service cfg.appointmentTypes with
    | error e =>
      rw [hd] at h
      simp at h
    | ok dur =>
      rw [hd] at h
      simp only at h
      by_cases hw : isWithinBusinessHours (toMinutes dt) cfg
      · rw [if_pos hw] at h
        cases hca : checkAvailability db (toMinutes dt) dur d.businessId with
        | mk av m =>
          rw [hca] at h
          cases av
          · simp only [Except.ok.injEq, Prod.mk.injEq] at h
            exact Or.inl (by rw [← h.2])
          · cases hb : d.businessId with
            | none =>
              unfold bookAppointment at h
              rw [hb] at h
              simp at h
            | some b =>
              unfold bookAppointment at h
              rw [hb] at h
              simp only [Except.ok.injEq, Prod.mk.injEq] at h
              obtain ⟨h1, h2⟩ := h
              subst h2
              have hmt : (checkAvailability db (toMinutes dt) dur
                  (some b)).1 = true := by
                rw [← hb, hca]
              exact Or.inr ⟨_, rfl, rfl, checkAvailability_true_no_match hmt⟩
      · rw [if_neg hw] at h
        simp only [Except.ok.injEq, Prod.mk.injEq] at h
        exact Or.inl (by rw [← h.2])

theorem cancelProcess_appointments {d : ReqData} {db db2 : DB} {r : Result}
    (h : cancelProcess d db = (r, db2)) :
    db2.appointments = db.appointments ∨
    ∃ i, db2.appointments = db.appointments.filter (fun a => a.id != i) := by
  unfold cancelProcess at h
  by_cases hfal : (pyFalsy d.customerName || pyFalsy d.phone) = true
  · rw [if_pos hfal] at h
    simp only [Prod.mk.injEq] at h
    exact Or.inl (by rw [← h.2])
  · rw [if_neg hfal] at h
    cases hf : db.appointments.find?
        (cancelMatches (d.customerName.getD "") (d.phone.getD "")) with
    | none =>
      rw [hf] at h
      simp only [Prod.mk.injEq] at h
      exact Or.inl (by rw [← h.2])
    | some row =>
      rw [hf] at h
      simp only [Prod.mk.injEq] at h
      exact Or.inr ⟨row.id, by rw [← h.2]⟩

theorem orderProcess_appointments {d : ReqData} {db db2 : DB} {r : Result}
    (h : orderProcess d db = .ok (r, db2)) :
    db2.appointments = db.appointments := by
  unfold orderProcess at h
  cases hb : d.businessId with
  | none => rw [hb] at h; simp at h
  | some b =>
    rw [hb] at h
    simp only [Except.ok.injEq, Prod.mk.injEq] at h
    rw [← h.2]

theorem messageProcess_appointments {d : ReqData} {db db2 : DB} {r : Result}
    (h : messageProcess d db = .ok (r, db2)) :
    db2.appointments = db.appointments := by
  unfold messageProcess at h
  cases hb : d.businessId with
  | none => rw [hb] at h; simp at h
  | some b =>
    rw [hb] at h
    simp only [Except.ok.injEq, Prod.mk.injEq] at h
    rw [← h.2]

/-- Claim C1: every reachable store state keeps, for each business, the
confirmed appointments pairwise non-overlapping in the half-open sense;
the four operations (booking, cancellation, order capture, message
capture) each preserve the invariant. -/
theorem c1_confirmed_no_overlap (db : DB) (h : Reachable db) :
    apptInvariant db := by
  induction h with
  | init => simp [apptInvariant, emptyDB]
  | book hr hstep ih =>
    rcases process_appointments hstep with heq | ⟨a, heq, hstat, hok⟩
    · unfold apptInvariant at ih ⊢
      rw [heq]
      exact ih
    · unfold apptInvariant at ih ⊢
      rw [heq, List.pairwise_append]
      refine ⟨ih, by simp, ?_⟩
      intro x hx y hy
      simp only [List.mem_singleton] at hy
      intro hbid hxs hys hov
      have hmm : apptMatchesConflict (some y.businessId) y.startTime
          y.endTime x = true :=
        apptMatchesConflict_iff.mpr ⟨hbid, hxs, overlap_sqlConflictB hov⟩
      rw [hy] at hmm
      rw [hok x hx] at hmm
      simp at hmm
  | cancel hr hstep ih =>
    rcases cancelProcess_appointments hstep with heq | ⟨i, heq⟩
    · unfold apptInvariant at ih ⊢
      rw [heq]
      exact ih
    · unfold apptInvariant at ih ⊢
      rw [heq]
      exact List.Pairwise.sublist (List.filter_sublist _) ih
  | order hr hstep ih =>
    unfold apptInvariant at ih ⊢
    rw [orderProcess_appointments hstep]
    exact ih
  | msg hr hstep ih =>
    unfold apptInvariant at ih ⊢
    rw [messageProcess_appointments hstep]
    exact ih

/-- Claim C1 witness: the invariant at a concrete reachable state (one
successful booking from the fresh store). -/
theorem c1_confirmed_no_overlap_witness : apptInvariant prC2a.2 :=
  c1_confirmed_no_overlap prC2a.2
    (Reachable.book Reachable.init
      (show process (bookReq "16:59") cfgMon1 emptyDB =
          .ok (prC2a.1, prC2a.2) by decide))


theorem firstSome_eq_some {α β : Type} {l : List α} {k : α → Option β}
    {b : β} (h : firstSome l k = some b) : ∃ a ∈ l, k a = some b := by
  induction l with
  | nil => cases h
  | cons a rest ih =>
    rw [firstSome] at h
    cases hk : k a with
    | some v =>
      rw [hk] at h
      cases h
      exact ⟨a, List.mem_cons_self a rest, hk⟩
    | none =>
      rw [hk] at h
      obtain ⟨x, hx, hkx⟩ := ih h
      exact ⟨x, List.mem_cons_of_mem a hx, hkx⟩

theorem altsH_le {cs : List Char} : ∀ pr ∈ altsH cs, pr.1 ≤ 23 := by
  intro pr hpr
  unfold altsH at hpr
  rcases List.mem_append.mp hpr with h | h
  · rcases cs with _ | ⟨a, _ | ⟨b, rest⟩⟩
    · simp at h
    · simp at h
    · rcases ha : digitVal a with _ | x <;> rcases hb : digitVal b with _ | y <;>
        simp [ha, hb] at h
      have hx := digitVal_le ha
      have hy := digitVal_le hb
      rcases h with ⟨⟨h1, h2⟩, rfl⟩ | ⟨h1, rfl⟩ <;> simp <;> omega
  · rcases cs with _ | ⟨a, rest⟩
    · simp at h
    · rcases ha : digitVal a with _ | x <;> simp [ha] at h
      have hx := digitVal_le ha
      rw [h]
      simp
      omega


theorem altsMin_le {cs : List Char} : ∀ pr ∈ altsMin cs, pr.1 ≤ 59 := by
  intro pr hpr
  unfold altsMin at hpr
  rcases List.mem_append.mp hpr with h | h
  · rcases cs with _ | ⟨a, _ | ⟨b, rest⟩⟩
    · simp at h
    · simp at h
    · rcases ha : digitVal a with _ | x <;> rcases hb : digitVal b with _ | y <;>
        simp [ha, hb] at h
      have hx := digitVal_le ha
      have hy := digitVal_le hb
      rcases h with ⟨h1, rfl⟩
      simp
      omega
  · rcases cs with _ | ⟨a, rest⟩
    · simp at h
    · rcases ha : digitVal a with _ | x <;> simp [ha] at h
      have hx := digitVal_le ha
      rw [h]
      simp
      omega

theorem pHM_bound {cs : List Char} {t : PTime} (h : pHM cs = some t) :
    t.hour ≤ 23 ∧ t.minute ≤ 59 := by
  unfold pHM at h
  obtain ⟨hr, hhr, h2⟩ := firstSome_eq_some h
  cases hl : litP ':' hr.2 with
  | none => rw [hl] at h2; cases h2
  | some r2 =>
    rw [hl] at h2
    simp only [Option.some_bind] at h2
    obtain ⟨mr, hmr, h3⟩ := firstSome_eq_some h2
    split at h3
    · cases h3
      exact ⟨altsH_le hr hhr, altsMin_le mr hmr⟩
    · cases h3

theorem parseHM_le {cs : List Char} {o : Nat} (h : parseHM cs = some o) :
    o ≤ 1439 := by
  unfold parseHM at h
  cases hp : pHM cs with
  | none => rw [hp] at h; cases h
  | some t =>
    rw [hp] at h
    simp only [Option.map_some'] at h
    cases h
    have := pHM_bound hp
    omega

theorem parseHours_le {s : String} {o c : Nat}
    (h : parseHours s = some (o, c)) : o ≤ 1439 ∧ c ≤ 1439 := by
  unfold parseHours at h
  split at h
  · split at h
    · simp only [Option.some.injEq, Prod.mk.injEq] at h
      obtain ⟨ho, hc⟩ := h
      subst ho
      subst hc
      rename_i h1 h2
      exact ⟨parseHM_le h1, parseHM_le h2⟩
    · cases h
  · cases h


theorem scanSlots_mem {db : DB} {dur : Nat} {bid : Option String}
    {endOfDay : Nat} :
    ∀ fuel current acc (x : Alt),
      x ∈ (scanSlots db dur bid endOfDay fuel current acc).1 →
      x ∈ acc ∨
        ((checkAvailability db x.dt dur bid).1 = true ∧ current ≤ x.dt ∧
          x.dt + dur ≤ endOfDay ∧ (x.dt - current) % 30 = 0 ∧
          x = mkAlt x.dt) := by
  intro fuel
  induction fuel with
  | zero =>
    intro current acc x hx
    exact Or.inl (by simpa [scanSlots] using hx)
  | succ n ih =>
    intro current acc x hx
    rw [scanSlots] at hx
    by_cases h1 : current + dur ≤ endOfDay
    · rw [if_pos h1] at hx
      by_cases h2 : (checkAvailability db current dur bid).1 = true
      · rw [if_pos h2] at hx
        by_cases h3 : 5 ≤ (acc ++ [mkAlt current]).length
        · rw [if_pos h3] at hx
          rcases List.mem_append.mp hx with h | h
          · exact Or.inl h
          · simp only [List.mem_singleton] at h
            subst h
            exact Or.inr ⟨h2, Nat.le_refl _, h1, by simp [mkAlt], rfl⟩
        · rw [if_neg h3] at hx
          rcases ih (current + 30) (acc ++ [mkAlt current]) x hx with h | h
          · rcases List.mem_append.mp h with h | h
            · exact Or.inl h
            · simp only [List.mem_singleton] at h
              subst h
              exact Or.inr ⟨h2, Nat.le_refl _, h1, by simp [mkAlt], rfl⟩
          · obtain ⟨ha, hb, hc, hd, he⟩ := h
            refine Or.inr ⟨ha, by omega, hc, by omega, he⟩
      · rw [if_neg h2] at hx
        rcases ih (current + 30) acc x hx with h | h
        · exact Or.inl h
        · obtain ⟨ha, hb, hc, hd, he⟩ := h
          refine Or.inr ⟨ha, by omega, hc, by omega, he⟩
    · rw [if_neg h1] at hx
      exact Or.inl hx

theorem scanSlots_sorted {db : DB} {dur : Nat} {bid : Option String}
    {endOfDay : Nat} :
    ∀ fuel current acc,
      acc.Pairwise (fun u v => u.dt ≤ v.dt) →
      (∀ u ∈ acc, u.dt < current) →
      (scanSlots db dur bid endOfDay fuel current acc).1.Pairwise
        (fun u v => u.dt ≤ v.dt) := by
  intro fuel
  induction fuel with
  | zero =>
    intro current acc hs hlt
    simpa [scanSlots] using hs
  | succ n ih =>
    intro current acc hs hlt
    rw [scanSlots]
    by_cases h1 : current + dur ≤ endOfDay
    · rw [if_pos h1]
      by_cases h2 : (checkAvailability db current dur bid).1 = true
      · rw [if_pos h2]
        have hs2 : (acc ++ [mkAlt current]).Pairwise
            (fun u v => u.dt ≤ v.dt) := by
          rw [List.pairwise_append]
          refine ⟨hs, by simp, ?_⟩
          intro u hu v hv
          simp only [List.mem_singleton] at hv
          subst hv
          exact Nat.le_of_lt (hlt u hu)
        by_cases h3 : 5 ≤ (acc ++ [mkAlt current]).length
        · rw [if_pos h3]
          exact hs2
        · rw [if_neg h3]
          refine ih (current + 30) (acc ++ [mkAlt current]) hs2 ?_
          intro u hu
          rcases List.mem_append.mp hu with h | h
          · have := hlt u h
            omega
          · simp only [List.mem_singleton] at h
            subst h
            simp [mkAlt]
      · rw [if_neg h2]
        refine ih (current + 30) acc hs ?_
        intro u hu
        have := hlt u hu
        omega
    · rw [if_neg h1]
      exact hs

theorem scanSlots_len {db : DB} {dur : Nat} {bid : Option String}
    {endOfDay : Nat} :
    ∀ fuel current acc, acc.length ≤ 4 →
      (((scanSlots db dur bid endOfDay fuel current acc).2 = true ∧
        (scanSlots db dur bid endOfDay fuel current acc).1.length = 5) ∨
       ((scanSlots db dur bid endOfDay fuel current acc).2 = false ∧
        (scanSlots db dur bid endOfDay fuel current acc).1.length ≤ 4)) := by
  intro fuel
  induction fuel with
  | zero =>
    intro current acc hlen
    exact Or.inr ⟨by simp [scanSlots], by simpa [scanSlots] using hlen⟩
  | succ n ih =>
    intro current acc hlen
    rw [scanSlots]
    by_cases h1 : current + dur ≤ endOfDay
    · rw [if_pos h1]
      by_cases h2 : (checkAvailability db current dur bid).1 = true
      · rw [if_pos h2]
        by_cases h3 : 5 ≤ (acc ++ [mkAlt current]).length
        · rw [if_pos h3]
          have : (acc ++ [mkAlt current]).length = 5 := by
            simp at h3 ⊢
            omega
          exact Or.inl ⟨rfl, this⟩
        · rw [if_neg h3]
          refine ih (current + 30) (acc ++ [mkAlt current]) ?_
          simp at h3 ⊢
          omega
      · rw [if_neg h2]
        exact ih (current + 30) acc hlen
    · rw [if_neg h1]
      exact Or.inr ⟨rfl, hlen⟩


theorem scanDays_mem {db : DB} {cfg : Config} {dur : Nat}
    {bid : Option String} {baseDay : Nat} :
    ∀ offs acc (x : Alt), x ∈ scanDays db cfg dur bid baseDay offs acc →
      x ∈ acc ∨
      ∃ off ∈ offs, ∃ s o c,
        lookupHours cfg (weekdayNameOfDay (baseDay + off)) = some s ∧
        parseHours s = some (o, c) ∧
        (checkAvailability db x.dt dur bid).1 = true ∧
        (baseDay + off) * 1440 + o ≤ x.dt ∧
        x.dt + dur ≤ (baseDay + off) * 1440 + c ∧
        (x.dt - ((baseDay + off) * 1440 + o)) % 30 = 0 := by
  intro offs
  induction offs with
  | nil =>
    intro acc x hx
    exact Or.inl (by simpa [scanDays] using hx)
  | cons off rest ih =>
    intro acc x hx
    have push : ∀ (acc2 : List Alt),
        (x ∈ acc2 ∨ ∃ off2 ∈ rest, ∃ s o c,
          lookupHours cfg (weekdayNameOfDay (baseDay + off2)) = some s ∧
          parseHours s = some (o, c) ∧
          (checkAvailability db x.dt dur bid).1 = true ∧
          (baseDay + off2) * 1440 + o ≤ x.dt ∧
          x.dt + dur ≤ (baseDay + off2) * 1440 + c ∧
          (x.dt - ((baseDay + off2) * 1440 + o)) % 30 = 0) →
        (x ∈ acc2 ∨ ∃ off2 ∈ off :: rest, ∃ s o c,
          lookupHours cfg (weekdayNameOfDay (baseDay + off2)) = some s ∧
          parseHours s = some (o, c) ∧
          (checkAvailability db x.dt dur bid).1 = true ∧
          (baseDay + off2) * 1440 + o ≤ x.dt ∧
          x.dt + dur ≤ (baseDay + off2) * 1440 + c ∧
          (x.dt - ((baseDay + off2) * 1440 + o)) % 30 = 0) := by
      intro acc2
      rintro (h | ⟨off2, hmem, rest2⟩)
      · exact Or.inl h
      · exact Or.inr ⟨off2, List.mem_cons_of_mem off hmem, rest2⟩
    simp only [scanDays] at hx
    split at hx
    · exact push _ (ih acc x hx)
    · rename_i s hl
      split at hx
      · exact push _ (ih acc x hx)
      · rename_i hcl
        split at hx
        · exact push _ (ih acc x hx)
        · rename_i oc hp
          split at hx
          · rename_i hr
            rcases scanSlots_mem _ _ _ x hx with h | h
            · exact Or.inl h
            · obtain ⟨ha, hb, hc, hd, _⟩ := h
              exact Or.inr ⟨off, List.mem_cons_self off rest, s, oc.1,
                oc.2, hl, hp, ha, hb, hc, hd⟩
          · rename_i hr
            rcases push _ (ih _ x hx) with h | h
            · rcases scanSlots_mem _ _ _ x h with h2 | h2
              · exact Or.inl h2
              · obtain ⟨ha, hb, hc, hd, _⟩ := h2
                exact Or.inr ⟨off, List.mem_cons_self off rest, s, oc.1,
                  oc.2, hl, hp, ha, hb, hc, hd⟩
            · exact Or.inr h


theorem scanDays_sorted {db : DB} {cfg : Config} {dur : Nat}
    {bid : Option String} {baseDay : Nat} :
    ∀ offs acc, offs.Pairwise (fun i j => i < j) →
      acc.Pairwise (fun u v => u.dt ≤ v.dt) →
      (∀ u ∈ acc, ∀ off ∈ offs, u.dt < (baseDay + off) * 1440) →
      (scanDays db cfg dur bid baseDay offs acc).Pairwise
        (fun u v => u.dt ≤ v.dt) := by
  intro offs
  induction offs with
  | nil =>
    intro acc _ hs _
    simpa [scanDays] using hs
  | cons off rest ih =>
    intro acc hoffs hs hbound
    rw [List.pairwise_cons] at hoffs
    obtain ⟨hoff_lt, hrest⟩ := hoffs
    have hbound_rest : ∀ u ∈ acc, ∀ j ∈ rest,
        u.dt < (baseDay + j) * 1440 := fun u hu j hj =>
      hbound u hu j (List.mem_cons_of_mem off hj)
    simp only [scanDays]
    split
    · exact ih acc hrest hs hbound_rest
    · rename_i s hl
      split
      · exact ih acc hrest hs hbound_rest
      · rename_i hcl
        split
        · exact ih acc hrest hs hbound_rest
        · rename_i oc hp
          have hstart : ∀ u ∈ acc,
              u.dt < (baseDay + off) * 1440 + oc.1 := by
            intro u hu
            have := hbound u hu off (List.mem_cons_self off rest)
            omega
          have hs2 := @scanSlots_sorted db dur bid
            ((baseDay + off) * 1440 + oc.2)
            ((baseDay + off) * 1440 + oc.2 + 1 -
              ((baseDay + off) * 1440 + oc.1))
            ((baseDay + off) * 1440 + oc.1) acc hs hstart
          split
          · exact hs2
          · refine ih _ hrest hs2 ?_
            intro u hu j hj
            rcases scanSlots_mem _ _ _ u hu with h | h
            · exact hbound_rest u h j hj
            · obtain ⟨_, _, hc, _, _⟩ := h
              have hcle : oc.2 ≤ 1439 := (parseHours_le hp).2
              have hoj : off < j := hoff_lt j hj
              omega

theorem scanDays_len {db : DB} {cfg : Config} {dur : Nat}
    {bid : Option String} {baseDay : Nat} :
    ∀ offs acc, acc.length ≤ 4 →
      (scanDays db cfg dur bid baseDay offs acc).length ≤ 5 := by
  intro offs
  induction offs with
  | nil =>
    intro acc hlen
    simp only [scanDays]
    omega
  | cons off rest ih =>
    intro acc hlen
    simp only [scanDays]
    split
    · exact ih acc hlen
    · rename_i s hl
      split
      · exact ih acc hlen
      · rename_i hcl
        split
        · exact ih acc hlen
        · rename_i oc hp
          rcases @scanSlots_len db dur bid
              ((baseDay + off) * 1440 + oc.2)
              ((baseDay + off) * 1440 + oc.2 + 1 -
                ((baseDay + off) * 1440 + oc.1))
              ((baseDay + off) * 1440 + oc.1) acc hlen with
            h | h
          · rw [if_pos h.1]
            omega
          · rw [if_neg (by simp [h.1])]
            exact ih _ h.2


/-- Claim C5: every alternative-slot candidate is conflict-free against
the stored confirmed appointments of the business, lies within its day's
open/close window (start at or after opening, start+duration at or before
closing) on one of at most 7 consecutive days from the requested date at
a 30-minute increment from opening, the candidates are in non-decreasing
chronological order, and at most 5 are collected. -/
theorem c5_alternatives (requested dur : Nat) (bid : Option String)
    (db : DB) (cfg : Config) :
    (∀ x ∈ findAlternativeTimes requested dur bid db cfg,
      (∀ a ∈ db.appointments, bid = some a.businessId →
        a.status = "confirmed" →
        ¬ overlapP a.startTime a.endTime x.dt (x.dt + dur)) ∧
      (∃ off < 7, ∃ s o c,
        lookupHours cfg (weekdayNameOfDay (requested / 1440 + off)) = some s ∧
        parseHours s = some (o, c) ∧
        (requested / 1440 + off) * 1440 + o ≤ x.dt ∧
        x.dt + dur ≤ (requested / 1440 + off) * 1440 + c ∧
        (x.dt - ((requested / 1440 + off) * 1440 + o)) % 30 = 0)) ∧
    (findAlternativeTimes requested dur bid db cfg).Pairwise
      (fun u v => u.dt ≤ v.dt) ∧
    (findAlternativeTimes requested dur bid db cfg).length ≤ 5 := by
  refine ⟨?_, ?_, ?_⟩
  · intro x hx
    rcases scanDays_mem _ _ x hx with h | h
    · simp at h
    · obtain ⟨off, hoff, s, o, c, hl, hp, hav, hlo, hhi, hmod⟩ := h
      constructor
      · intro a ha hbid hst hov
        have hmatch : apptMatchesConflict bid x.dt (x.dt + dur) a = true := by
          rw [hbid]
          exact apptMatchesConflict_iff.mpr
            ⟨rfl, hst, overlap_sqlConflictB ⟨hov.1, hov.2⟩⟩
        rw [checkAvailability_true_no_match hav a ha] at hmatch
        cases hmatch
      · have hofflt : off < 7 := by
          simp only [List.mem_cons, List.not_mem_nil, or_false] at hoff
          omega
        exact ⟨off, hofflt, s, o, c, hl, hp, hlo, hhi, hmod⟩
  · exact scanDays_sorted _ _ (by decide) (by simp) (by simp)
  · exact scanDays_len _ _ (by simp)

/-- Claim C5 witness: first candidate of a concrete scan. -/
theorem c5_alternatives_witness :
    (findAlternativeTimes (monBase * 1440 + 600) 30 (some "biz1") dbW5
        cfgMon1).Pairwise (fun u v => u.dt ≤ v.dt) ∧
    (findAlternativeTimes (monBase * 1440 + 600) 30 (some "biz1") dbW5
        cfgMon1).length ≤ 5 ∧
    (∀ a ∈ dbW5.appointments,
      (some "biz1" : Option String) = some a.businessId →
      a.status = "confirmed" →
      ¬ overlapP a.startTime a.endTime (mkAlt (monBase * 1440 + 540)).dt
        ((mkAlt (monBase * 1440 + 540)).dt + 30)) :=
  ⟨(c5_alternatives (monBase * 1440 + 600) 30 (some "biz1") dbW5
      cfgMon1).2.1,
   (c5_alternatives (monBase * 1440 + 600) 30 (some "biz1") dbW5
      cfgMon1).2.2,
   ((c5_alternatives (monBase * 1440 + 600) 30 (some "biz1") dbW5
      cfgMon1).1 (mkAlt (monBase * 1440 + 540)) (by decide)).1⟩


/-- Claim C2 (amended): when a booking request parses, resolves a
duration, passes the business-hours gate, and its interval overlaps a
stored confirmed appointment of the same business, process inserts
nothing (the store comes back unchanged), answers success:false with
action suggest_alternatives, returns all collected alternatives (at most
5) in the structured result, and builds the user-facing message from only
the first 3 — or the callback-promise message when none were found. -/
theorem c2_conflict_no_insert (d : ReqData) (cfg : Config) (db : DB)
    (dt : PDateTime) (dur : Nat) (b : String) (a : Appointment)
    (h1 : parseDatetimeOpt d.date d.time = some dt)
    (h2 : getServiceDuration d.service cfg.appointmentTypes = .ok dur)
    (h3 : isWithinBusinessHours (toMinutes dt) cfg = true)
    (h4 : d.businessId = some b)
    (h5 : a ∈ db.appointments) (h6 : a.businessId = b)
    (h7 : a.status = "confirmed")
    (h8 : overlapP a.startTime a.endTime (toMinutes dt)
      (toMinutes dt + dur)) :
    process d cfg db =
      .ok ({ success := false,
             message :=
               (if (findAlternativeTimes (toMinutes dt) dur d.businessId
                   db cfg).isEmpty
                then conflictBookedMsg ++ callbackTail
                else conflictBookedMsg ++ " I have these times available: " ++
                  String.intercalate ", "
                    (((findAlternativeTimes (toMinutes dt) dur d.businessId
                      db cfg).take 3).map Alt.formatted) ++
                  ". Which works better for you?"),
             alternatives := some (findAlternativeTimes (toMinutes dt) dur
               d.businessId db cfg),
             action := some "suggest_alternatives" }, db) ∧
    (findAlternativeTimes (toMinutes dt) dur d.businessId db cfg).length
      ≤ 5 := by
  have hconf : (checkAvailability db (toMinutes dt) dur d.businessId).1
      = false := by
    rw [h4]
    exact checkAvailability_fst_false_iff.mpr
      ⟨a, h5, apptMatchesConflict_iff.mpr
        ⟨h6, h7, overlap_sqlConflictB h8⟩⟩
  have heq := checkAvailability_eq_false hconf
  constructor
  · simp only [process, h1, h2, if_pos h3, heq]
  · exact scanDays_len _ _ (by simp)

/-- Claim C2 counterexample: a request whose interval overlaps a stored
confirmed appointment of the same business but which falls outside
business hours (the prior booking at 16:59 extends past the 17:00 close
because only the start instant is hours-checked) is rejected by the hours
gate: success:false, but no action and no alternatives, refuting the
claim as universally stated. -/
theorem c2_counterexample :
    process (bookReq "16:59") cfgMon1 emptyDB = .ok (prC2a.1, prC2a.2) ∧
    prC2a.1.success = true ∧
    (∃ a ∈ prC2a.2.appointments, a.businessId = "biz1" ∧
      a.status = "confirmed" ∧
      overlapP a.startTime a.endTime (monBase * 1440 + 1035)
        (monBase * 1440 + 1035 + 30)) ∧
    (bookReq "17:15").businessId = some "biz1" ∧
    parseDatetimeOpt (bookReq "17:15").date (bookReq "17:15").time =
      some ⟨⟨2025, 11, 3⟩, ⟨17, 15⟩⟩ ∧
    toMinutes ⟨⟨2025, 11, 3⟩, ⟨17, 15⟩⟩ = monBase * 1440 + 1035 ∧
    process (bookReq "17:15") cfgMon1 prC2a.2 =
      .ok ({ success := false, message := hoursRejectMsg }, prC2a.2) :=
  ⟨by decide, by decide, by decide, by decide, by decide, by decide,
   by decide⟩

/-- Claim C2 witness for the amended theorem at a concrete conflicting
request. -/
theorem c2_conflict_no_insert_witness :
    process (bookReq "10:00") cfgMon1 dbW5 =
      .ok ({ success := false,
             message :=
               (if (findAlternativeTimes
                   (toMinutes ⟨⟨2025, 11, 3⟩, ⟨10, 0⟩⟩) 30
                   (bookReq "10:00").businessId dbW5 cfgMon1).isEmpty
                then conflictBookedMsg ++ callbackTail
                else conflictBookedMsg ++ " I have these times available: " ++
                  String.intercalate ", "
                    (((findAlternativeTimes
                      (toMinutes ⟨⟨2025, 11, 3⟩, ⟨10, 0⟩⟩) 30
                      (bookReq "10:00").businessId dbW5 cfgMon1).take 3).map
                      Alt.formatted) ++
                  ". Which works better for you?"),
             alternatives := some (findAlternativeTimes
               (toMinutes ⟨⟨2025, 11, 3⟩, ⟨10, 0⟩⟩) 30
               (bookReq "10:00").businessId dbW5 cfgMon1),
             action := some "suggest_alternatives" }, dbW5) ∧
    (findAlternativeTimes (toMinutes ⟨⟨2025, 11, 3⟩, ⟨10, 0⟩⟩) 30
      (bookReq "10:00").businessId dbW5 cfgMon1).length ≤ 5 :=
  c2_conflict_no_insert (bookReq "10:00") cfgMon1 dbW5
    ⟨⟨2025, 11, 3⟩, ⟨10, 0⟩⟩ 30 "biz1"
    (apptW 1 (monBase * 1440 + 600) (monBase * 1440 + 630))
    (by decide) (by decide) (by decide) rfl (by decide) rfl rfl (by decide)

theorem notSpace_digitChar {n : Nat} (h : n < 10) :
    isSpaceChar (digitChar n) = false := by
  interval_cases n <;> decide

theorem dropWhile_nonspace {c : Char} {t : List Char}
    (h : isSpaceChar c = false) :
    List.dropWhile isSpaceChar (c :: t) = c :: t :=
  List.dropWhile_cons_of_neg (by simp [h])

theorem stripChars_eq_self {l : List Char}
    (h1 : ∀ c, l.head? = some c → isSpaceChar c = false)
    (h2 : ∀ c, l.getLast? = some c → isSpaceChar c = false) :
    stripChars l = l := by
  cases l with
  | nil => rfl
  | cons a t =>
    have ha : isSpaceChar a = false := h1 a rfl
    unfold stripChars
    rw [dropWhile_nonspace ha]
    unfold dropTrailing
    cases hr : (a :: t).reverse with
    | nil => simp at hr
    | cons b u =>
      have hb : (a :: t).getLast? = some b := by
        rw [← List.head?_reverse, hr]
        rfl
      have hsb := h2 b hb
      rw [dropWhile_nonspace hsb, ← hr, List.reverse_reverse]

theorem altsY_pad4 {y : Nat} (hy : y ≤ 9999) (r : List Char) :
    altsY (pad4 y ++ r) = [(y, r)] := by
  have e1 := digitVal_digitChar (show y / 1000 < 10 by omega)
  have e2 := digitVal_digitChar (show y / 100 % 10 < 10 by omega)
  have e3 := digitVal_digitChar (show y / 10 % 10 < 10 by omega)
  have e4 := digitVal_digitChar (show y % 10 < 10 by omega)
  show altsY (digitChar (y / 1000) :: digitChar (y / 100 % 10) ::
    digitChar (y / 10 % 10) :: digitChar (y % 10) :: r) = [(y, r)]
  simp only [altsY, e1, e2, e3, e4]
  have : ((y / 1000 * 10 + y / 100 % 10) * 10 + y / 10 % 10) * 10 + y % 10 = y := by
    omega
  rw [this]

theorem altsM_pad2 {m : Nat} (h1 : 1 ≤ m) (h2 : m ≤ 12) (r : List Char) :
    ∃ junk, altsM (pad2 m ++ r) = (m, r) :: junk ∧
      ∀ x ∈ junk, ∃ v, x = (v, digitChar (m % 10) :: r) := by
  interval_cases m <;>
    exact ⟨_, rfl, by intro x hx; fin_cases hx <;> exact ⟨_, rfl⟩⟩

theorem altsD_pad2 {d : Nat} (h1 : 1 ≤ d) (h2 : d ≤ 31) (r : List Char) :
    ∃ junk, altsD (pad2 d ++ r) = (d, r) :: junk ∧
      ∀ x ∈ junk, ∃ v, x = (v, digitChar (d % 10) :: r) := by
  interval_cases d <;>
    exact ⟨_, rfl, by intro x hx; fin_cases hx <;> exact ⟨_, rfl⟩⟩

theorem altsH_pad2 {h : Nat} (hh : h ≤ 23) (r : List Char) :
    altsH (pad2 h ++ r) = [(h, r), (h / 10, digitChar (h % 10) :: r)] := by
  interval_cases h <;> rfl

theorem altsMin_pad2 {mi : Nat} (hm : mi ≤ 59) (r : List Char) :
    altsMin (pad2 mi ++ r) = [(mi, r), (mi / 10, digitChar (mi % 10) :: r)] := by
  interval_cases mi <;> rfl

theorem altsI_pad2 {i : Nat} (h1 : 1 ≤ i) (h2 : i ≤ 12) (r : List Char) :
    ∃ junk, altsI (pad2 i ++ r) = (i, r) :: junk ∧
      ∀ x ∈ junk, ∃ v, x = (v, digitChar (i % 10) :: r) :=
  altsM_pad2 h1 h2 r

theorem firstSome_cons_of_some {α β : Type} {a : α} {l : List α}
    {k : α → Option β} {b : β} (h : k a = some b) :
    firstSome (a :: l) k = some b := by
  rw [firstSome, h]

theorem firstSome_none {α β : Type} {l : List α} {k : α → Option β}
    (h : ∀ a ∈ l, k a = none) : firstSome l k = none := by
  induction l with
  | nil => rfl
  | cons a rest ih =>
    rw [firstSome, h a (List.mem_cons_self a rest)]
    exact ih fun x hx => h x (List.mem_cons_of_mem a hx)

theorem digitChar_ne {n : Nat} {c : Char} (hn : n < 10)
    (hc : digitVal c = none) : digitChar n ≠ c := by
  intro he
  rw [← he, digitVal_digitChar hn] at hc
  cases hc

theorem litP_of_ne {ch c : Char} {r : List Char} (h : c ≠ ch) :
    litP ch (c :: r) = none := by
  simp [litP, h]

theorem daysInMonth_le {y m : Nat} : daysInMonth y m ≤ 31 := by
  unfold daysInMonth
  split
  · split <;> omega
  · split <;> omega

theorem pYmd_rt {y m d : Nat} (hy1 : 1 ≤ y) (hy2 : y ≤ 9999)
    (hm1 : 1 ≤ m) (hm2 : m ≤ 12) (hd1 : 1 ≤ d)
    (hd2 : d ≤ daysInMonth y m) :
    pYmd (pad4 y ++ '-' :: (pad2 m ++ '-' :: pad2 d)) = some ⟨y, m, d⟩ := by
  obtain ⟨junkM, hM, _⟩ := altsM_pad2 hm1 hm2 ('-' :: pad2 d)
  have hd31 : d ≤ 31 := le_trans hd2 daysInMonth_le
  obtain ⟨junkD, hD, _⟩ := altsD_pad2 hd1 hd31 ([] : List Char)
  have hD2 : altsD (pad2 d) = (d, []) :: junkD := by simpa using hD
  unfold pYmd
  rw [altsY_pad4 hy2]
  apply firstSome_cons_of_some
  simp only [litP, reduceIte, Option.some_bind]
  rw [hM]
  apply firstSome_cons_of_some
  simp only [litP, reduceIte, Option.some_bind]
  rw [hD2]
  apply firstSome_cons_of_some
  simp only [reduceIte]
  unfold mkValidDate
  rw [if_pos ⟨hy1, hy2, hm1, hm2, hd1, hd2⟩]

theorem pMdYs_rt {y m d : Nat} (hy1 : 1 ≤ y) (hy2 : y ≤ 9999)
    (hm1 : 1 ≤ m) (hm2 : m ≤ 12) (hd1 : 1 ≤ d)
    (hd2 : d ≤ daysInMonth y m) :
    pMdYs (pad2 m ++ '/' :: (pad2 d ++ '/' :: pad4 y)) = some ⟨y, m, d⟩ := by
  obtain ⟨junkM, hM, _⟩ := altsM_pad2 hm1 hm2 ('/' :: (pad2 d ++ '/' :: pad4 y))
  obtain ⟨junkD, hD, _⟩ := altsD_pad2 hd1 (le_trans hd2 daysInMonth_le)
    ('/' :: pad4 y)
  unfold pMdYs
  rw [hM]
  apply firstSome_cons_of_some
  simp only [litP, reduceIte, Option.some_bind]
  rw [hD]
  apply firstSome_cons_of_some
  simp only [litP, reduceIte, Option.some_bind]
  have hY : altsY (pad4 y) = [(y, [])] := by
    simpa using altsY_pad4 hy2 ([] : List Char)
  rw [hY]
  apply firstSome_cons_of_some
  simp only [reduceIte]
  unfold mkValidDate
  rw [if_pos ⟨hy1, hy2, hm1, hm2, hd1, hd2⟩]

theorem pMdYd_rt {y m d : Nat} (hy1 : 1 ≤ y) (hy2 : y ≤ 9999)
    (hm1 : 1 ≤ m) (hm2 : m ≤ 12) (hd1 : 1 ≤ d)
    (hd2 : d ≤ daysInMonth y m) :
    pMdYd (pad2 m ++ '-' :: (pad2 d ++ '-' :: pad4 y)) = some ⟨y, m, d⟩ := by
  obtain ⟨junkM, hM, _⟩ := altsM_pad2 hm1 hm2 ('-' :: (pad2 d ++ '-' :: pad4 y))
  obtain ⟨junkD, hD, _⟩ := altsD_pad2 hd1 (le_trans hd2 daysInMonth_le)
    ('-' :: pad4 y)
  unfold pMdYd
  rw [hM]
  apply firstSome_cons_of_some
  simp only [litP, reduceIte, Option.some_bind]
  rw [hD]
  apply firstSome_cons_of_some
  simp only [litP, reduceIte, Option.some_bind]
  have hY : altsY (pad4 y) = [(y, [])] := by
    simpa using altsY_pad4 hy2 ([] : List Char)
  rw [hY]
  apply firstSome_cons_of_some
  simp only [reduceIte]
  unfold mkValidDate
  rw [if_pos ⟨hy1, hy2, hm1, hm2, hd1, hd2⟩]

theorem wsP_space {r : List Char} :
    wsP (' ' :: r) = some (r.dropWhile isSpaceChar) := by
  simp [wsP, isSpaceChar]

theorem matchMonthFull_cap {m : Nat} (h1 : 1 ≤ m) (h2 : m ≤ 12)
    (r : List Char) :
    matchMonthAux monthNamesFullLower 1 (monthCapChars m ++ ' ' :: r) =
      some (m, ' ' :: r) := by
  interval_cases m <;> rfl

theorem matchMonthAbbrev_cap {m : Nat} (h1 : 1 ≤ m) (h2 : m ≤ 12)
    (r : List Char) :
    matchMonthAux monthNamesAbbrevLower 1 (monthAbbrevChars m ++ ' ' :: r) =
      some (m, ' ' :: r) := by
  interval_cases m <;> rfl

theorem matchMonthFull_on_abbrev {m : Nat} (h1 : 1 ≤ m) (h2 : m ≤ 12)
    (h5 : m ≠ 5) (r : List Char) :
    matchMonthAux monthNamesFullLower 1 (monthAbbrevChars m ++ ' ' :: r) =
      none := by
  interval_cases m <;> first | rfl | exact absurd rfl h5

theorem pBdY_rt {y m d : Nat} (hy1 : 1 ≤ y) (hy2 : y ≤ 9999)
    (hm1 : 1 ≤ m) (hm2 : m ≤ 12) (hd1 : 1 ≤ d)
    (hd2 : d ≤ daysInMonth y m) :
    pBdY (monthCapChars m ++ ' ' :: (pad2 d ++ ',' :: ' ' :: pad4 y)) =
      some ⟨y, m, d⟩ := by
  obtain ⟨junkD, hD, _⟩ := altsD_pad2 hd1 (le_trans hd2 daysInMonth_le)
    (',' :: ' ' :: pad4 y)
  have hY : altsY (pad4 y) = [(y, [])] := by
    simpa using altsY_pad4 hy2 ([] : List Char)
  have hd31 : d ≤ 31 := le_trans hd2 daysInMonth_le
  have hdwD : (pad2 d ++ ',' :: ' ' :: pad4 y).dropWhile isSpaceChar =
      pad2 d ++ ',' :: ' ' :: pad4 y :=
    dropWhile_nonspace (notSpace_digitChar (by omega))
  have hdwY : (pad4 y).dropWhile isSpaceChar = pad4 y :=
    dropWhile_nonspace (notSpace_digitChar (by omega))
  unfold pBdY
  rw [matchMonthFull_cap hm1 hm2]
  simp only [Option.some_bind]
  rw [wsP_space, hdwD]
  simp only [Option.some_bind]
  rw [hD]
  apply firstSome_cons_of_some
  simp only [litP, reduceIte, Option.some_bind]
  rw [wsP_space, hdwY]
  simp only [Option.some_bind]
  rw [hY]
  apply firstSome_cons_of_some
  simp only [reduceIte]
  unfold mkValidDate
  rw [if_pos ⟨hy1, hy2, hm1, hm2, hd1, hd2⟩]

theorem pbdY_rt {y m d : Nat} (hy1 : 1 ≤ y) (hy2 : y ≤ 9999)
    (hm1 : 1 ≤ m) (hm2 : m ≤ 12) (hd1 : 1 ≤ d)
    (hd2 : d ≤ daysInMonth y m) :
    pbdY (monthAbbrevChars m ++ ' ' :: (pad2 d ++ ',' :: ' ' :: pad4 y)) =
      some ⟨y, m, d⟩ := by
  obtain ⟨junkD, hD, _⟩ := altsD_pad2 hd1 (le_trans hd2 daysInMonth_le)
    (',' :: ' ' :: pad4 y)
  have hY : altsY (pad4 y) = [(y, [])] := by
    simpa using altsY_pad4 hy2 ([] : List Char)
  have hd31 : d ≤ 31 := le_trans hd2 daysInMonth_le
  have hdwD : (pad2 d ++ ',' :: ' ' :: pad4 y).dropWhile isSpaceChar =
      pad2 d ++ ',' :: ' ' :: pad4 y :=
    dropWhile_nonspace (notSpace_digitChar (by omega))
  have hdwY : (pad4 y).dropWhile isSpaceChar = pad4 y :=
    dropWhile_nonspace (notSpace_digitChar (by omega))
  unfold pbdY
  rw [matchMonthAbbrev_cap hm1 hm2]
  simp only [Option.some_bind]
  rw [wsP_space, hdwD]
  simp only [Option.some_bind]
  rw [hD]
  apply firstSome_cons_of_some
  simp only [litP, reduceIte, Option.some_bind]
  rw [wsP_space, hdwY]
  simp only [Option.some_bind]
  rw [hY]
  apply firstSome_cons_of_some
  simp only [reduceIte]
  unfold mkValidDate
  rw [if_pos ⟨hy1, hy2, hm1, hm2, hd1, hd2⟩]

theorem altsY_nil_of_nondigit1 {c1 : Char} {r : List Char}
    (h : digitVal c1 = none) : altsY (c1 :: r) = [] := by
  rcases r with _ | ⟨c2, _ | ⟨c3, _ | ⟨c4, r4⟩⟩⟩ <;> simp [altsY, h]

theorem altsY_nil_of_nondigit3 {c1 c2 c3 : Char} {r : List Char}
    (h : digitVal c3 = none) : altsY (c1 :: c2 :: c3 :: r) = [] := by
  rcases r with _ | ⟨c4, r4⟩
  · rfl
  · unfold altsY
    rcases h1 : digitVal c1 with _ | x <;> rcases h2 : digitVal c2 with _ | y <;>
      simp [h1, h2, h]

theorem altsM_nil_of_nondigit1 {c1 : Char} {r : List Char}
    (h : digitVal c1 = none) : altsM (c1 :: r) = [] := by
  rcases r with _ | ⟨c2, r2⟩ <;> simp [altsM, h]

theorem pYmd_none {cs : List Char} (h : altsY cs = []) : pYmd cs = none := by
  unfold pYmd
  rw [h]
  rfl

theorem pMdYs_none_of_altsM {cs : List Char} (h : altsM cs = []) :
    pMdYs cs = none := by
  unfold pMdYs
  rw [h]
  rfl

theorem pMdYd_none_of_altsM {cs : List Char} (h : altsM cs = []) :
    pMdYd cs = none := by
  unfold pMdYd
  rw [h]
  rfl

theorem pMdYs_none_dash {m : Nat} (hm1 : 1 ≤ m) (hm2 : m ≤ 12)
    (R : List Char) :
    pMdYs (pad2 m ++ '-' :: R) = none := by
  obtain ⟨junkM, hM, hjunk⟩ := altsM_pad2 hm1 hm2 ('-' :: R)
  unfold pMdYs
  rw [hM]
  apply firstSome_none
  intro a ha
  rcases List.mem_cons.mp ha with rfl | hmem
  · simp only [litP_of_ne (show ('-' : Char) ≠ '/' from by decide),
      Option.none_bind]
  · obtain ⟨v, rfl⟩ := hjunk a hmem
    simp only [litP_of_ne (digitChar_ne (show m % 10 < 10 by omega)
      (show digitVal '/' = none from by decide)), Option.none_bind]

theorem monthCapChars_spec {m : Nat} (h1 : 1 ≤ m) (h2 : m ≤ 12) :
    ∃ c cs, monthCapChars m = c :: cs ∧ digitVal c = none ∧
      isSpaceChar c = false := by
  interval_cases m <;> exact ⟨_, _, rfl, by decide, by decide⟩

theorem monthAbbrevChars_spec {m : Nat} (h1 : 1 ≤ m) (h2 : m ≤ 12) :
    ∃ c cs, monthAbbrevChars m = c :: cs ∧ digitVal c = none ∧
      isSpaceChar c = false := by
  interval_cases m <;> exact ⟨_, _, rfl, by decide, by decide⟩

theorem dateCascade_Ymd {y m d : Nat} (hy1 : 1 ≤ y) (hy2 : y ≤ 9999)
    (hm1 : 1 ≤ m) (hm2 : m ≤ 12) (hd1 : 1 ≤ d)
    (hd2 : d ≤ daysInMonth y m) :
    tryDateFormats dateFormats (pad4 y ++ '-' :: (pad2 m ++ '-' :: pad2 d)) =
      some ⟨y, m, d⟩ := by
  have h1 := pYmd_rt hy1 hy2 hm1 hm2 hd1 hd2
  simp [dateFormats, tryDateFormats, strptimeDateF, h1]

theorem dateCascade_MdYs {y m d : Nat} (hy1 : 1 ≤ y) (hy2 : y ≤ 9999)
    (hm1 : 1 ≤ m) (hm2 : m ≤ 12) (hd1 : 1 ≤ d)
    (hd2 : d ≤ daysInMonth y m) :
    tryDateFormats dateFormats (pad2 m ++ '/' :: (pad2 d ++ '/' :: pad4 y)) =
      some ⟨y, m, d⟩ := by
  have h0 : pYmd (pad2 m ++ '/' :: (pad2 d ++ '/' :: pad4 y)) = none :=
    pYmd_none (altsY_nil_of_nondigit3 (by decide))
  have h1 := pMdYs_rt hy1 hy2 hm1 hm2 hd1 hd2
  simp [dateFormats, tryDateFormats, strptimeDateF, h0, h1]

theorem dateCascade_MdYd {y m d : Nat} (hy1 : 1 ≤ y) (hy2 : y ≤ 9999)
    (hm1 : 1 ≤ m) (hm2 : m ≤ 12) (hd1 : 1 ≤ d)
    (hd2 : d ≤ daysInMonth y m) :
    tryDateFormats dateFormats (pad2 m ++ '-' :: (pad2 d ++ '-' :: pad4 y)) =
      some ⟨y, m, d⟩ := by
  have h0 : pYmd (pad2 m ++ '-' :: (pad2 d ++ '-' :: pad4 y)) = none :=
    pYmd_none (altsY_nil_of_nondigit3 (by decide))
  have h1 : pMdYs (pad2 m ++ '-' :: (pad2 d ++ '-' :: pad4 y)) = none :=
    pMdYs_none_dash hm1 hm2 _
  have h2 := pMdYd_rt hy1 hy2 hm1 hm2 hd1 hd2
  simp [dateFormats, tryDateFormats, strptimeDateF, h0, h1, h2]

theorem dateCascade_BdY {y m d : Nat} (hy1 : 1 ≤ y) (hy2 : y ≤ 9999)
    (hm1 : 1 ≤ m) (hm2 : m ≤ 12) (hd1 : 1 ≤ d)
    (hd2 : d ≤ daysInMonth y m) :
    tryDateFormats dateFormats
        (monthCapChars m ++ ' ' :: (pad2 d ++ ',' :: ' ' :: pad4 y)) =
      some ⟨y, m, d⟩ := by
  obtain ⟨c, cs, hc, hdig, _⟩ := monthCapChars_spec hm1 hm2
  have h0 : pYmd (monthCapChars m ++ ' ' :: (pad2 d ++ ',' :: ' ' :: pad4 y))
      = none := by
    rw [hc]
    exact pYmd_none (altsY_nil_of_nondigit1 hdig)
  have h1 : pMdYs (monthCapChars m ++ ' ' :: (pad2 d ++ ',' :: ' ' :: pad4 y))
      = none := by
    rw [hc]
    exact pMdYs_none_of_altsM (altsM_nil_of_nondigit1 hdig)
  have h2 : pMdYd (monthCapChars m ++ ' ' :: (pad2 d ++ ',' :: ' ' :: pad4 y))
      = none := by
    rw [hc]
    exact pMdYd_none_of_altsM (altsM_nil_of_nondigit1 hdig)
  have h3 := pBdY_rt hy1 hy2 hm1 hm2 hd1 hd2
  simp [dateFormats, tryDateFormats, strptimeDateF, h0, h1, h2, h3]

theorem dateCascade_bdY {y m d : Nat} (hy1 : 1 ≤ y) (hy2 : y ≤ 9999)
    (hm1 : 1 ≤ m) (hm2 : m ≤ 12) (hd1 : 1 ≤ d)
    (hd2 : d ≤ daysInMonth y m) :
    tryDateFormats dateFormats
        (monthAbbrevChars m ++ ' ' :: (pad2 d ++ ',' :: ' ' :: pad4 y)) =
      some ⟨y, m, d⟩ := by
  obtain ⟨c, cs, hc, hdig, _⟩ := monthAbbrevChars_spec hm1 hm2
  have h0 : pYmd
      (monthAbbrevChars m ++ ' ' :: (pad2 d ++ ',' :: ' ' :: pad4 y))
      = none := by
    rw [hc]
    exact pYmd_none (altsY_nil_of_nondigit1 hdig)
  have h1 : pMdYs
      (monthAbbrevChars m ++ ' ' :: (pad2 d ++ ',' :: ' ' :: pad4 y))
      = none := by
    rw [hc]
    exact pMdYs_none_of_altsM (altsM_nil_of_nondigit1 hdig)
  have h2 : pMdYd
      (monthAbbrevChars m ++ ' ' :: (pad2 d ++ ',' :: ' ' :: pad4 y))
      = none := by
    rw [hc]
    exact pMdYd_none_of_altsM (altsM_nil_of_nondigit1 hdig)
  by_cases hm5 : m = 5
  · subst hm5
    have h3 : pBdY
        (monthAbbrevChars 5 ++ ' ' :: (pad2 d ++ ',' :: ' ' :: pad4 y)) =
        some ⟨y, 5, d⟩ := pBdY_rt hy1 hy2 hm1 hm2 hd1 hd2
    simp [dateFormats, tryDateFormats, strptimeDateF, h0, h1, h2, h3]
  · have h3 : pBdY
        (monthAbbrevChars m ++ ' ' :: (pad2 d ++ ',' :: ' ' :: pad4 y)) =
        none := by
      unfold pBdY
      rw [matchMonthFull_on_abbrev hm1 hm2 hm5]
      rfl
    have h4 := pbdY_rt hy1 hy2 hm1 hm2 hd1 hd2
    simp [dateFormats, tryDateFormats, strptimeDateF, h0, h1, h2, h3, h4]

theorem hour12_ge {h : Nat} : 1 ≤ hour12 h := by
  unfold hour12
  split <;> omega

theorem hour12_le {h : Nat} : hour12 h ≤ 12 := by
  unfold hour12
  split <;> omega

theorem hour24_am {h : Nat} (hlt : h < 12) :
    hour12to24 (hour12 h) false = h := by
  interval_cases h <;> rfl

theorem hour24_pm {h : Nat} (h1 : 12 ≤ h) (h2 : h < 24) :
    hour12to24 (hour12 h) true = h := by
  interval_cases h <;> rfl

theorem wsP_nonspace {c : Char} {r : List Char}
    (h : isSpaceChar c = false) : wsP (c :: r) = none := by
  simp [wsP, h]

theorem ampm_am {h : Nat} (hlt : h < 12) : ampmCharsOf h = ['A', 'M'] := by
  simp [ampmCharsOf, hlt]

theorem ampm_pm {h : Nat} (hge : 12 ≤ h) : ampmCharsOf h = ['P', 'M'] := by
  simp [ampmCharsOf]
  omega

theorem pHM_rt {h mi : Nat} (hh : h < 24) (hmi : mi < 60) :
    pHM (pad2 h ++ ':' :: pad2 mi) = some ⟨h, mi⟩ := by
  have hMin : altsMin (pad2 mi) = (mi, []) ::
      [(mi / 10, [digitChar (mi % 10)])] := by
    simpa using altsMin_pad2 (by omega) ([] : List Char)
  unfold pHM
  rw [altsH_pad2 (by omega)]
  apply firstSome_cons_of_some
  simp only [litP, reduceIte, Option.some_bind]
  rw [hMin]
  apply firstSome_cons_of_some
  simp only [reduceIte]

theorem pIMp_rt {h mi : Nat} (hh : h < 24) (hmi : mi < 60) :
    pIMp (pad2 (hour12 h) ++ ':' :: (pad2 mi ++ ' ' :: ampmCharsOf h)) =
      some ⟨h, mi⟩ := by
  obtain ⟨junkI, hI, _⟩ := altsM_pad2 hour12_ge hour12_le
    (':' :: (pad2 mi ++ ' ' :: ampmCharsOf h))
  unfold pIMp
  simp only [altsI]
  rw [hI]
  apply firstSome_cons_of_some
  simp only [litP, reduceIte, Option.some_bind]
  rw [altsMin_pad2 (by omega)]
  apply firstSome_cons_of_some
  simp only [Option.some_bind]
  rw [wsP_space]
  by_cases hlt : h < 12
  · rw [ampm_am hlt]
    simp only [Option.some_bind]
    rw [show (['A', 'M'] : List Char).dropWhile isSpaceChar = ['A', 'M']
      from rfl]
    rw [show ampmP ['A', 'M'] = some (false, []) from rfl]
    simp only [Option.some_bind, reduceIte]
    rw [hour24_am hlt]
  · rw [ampm_pm (by omega)]
    simp only [Option.some_bind]
    rw [show (['P', 'M'] : List Char).dropWhile isSpaceChar = ['P', 'M']
      from rfl]
    rw [show ampmP ['P', 'M'] = some (true, []) from rfl]
    simp only [Option.some_bind, reduceIte]
    rw [hour24_pm (by omega) hh]

theorem pIMpn_rt {h mi : Nat} (hh : h < 24) (hmi : mi < 60) :
    pIMpn (pad2 (hour12 h) ++ ':' :: (pad2 mi ++ ampmCharsOf h)) =
      some ⟨h, mi⟩ := by
  obtain ⟨junkI, hI, _⟩ := altsM_pad2 hour12_ge hour12_le
    (':' :: (pad2 mi ++ ampmCharsOf h))
  unfold pIMpn
  simp only [altsI]
  rw [hI]
  apply firstSome_cons_of_some
  simp only [litP, reduceIte, Option.some_bind]
  rw [altsMin_pad2 (by omega)]
  apply firstSome_cons_of_some
  by_cases hlt : h < 12
  · rw [ampm_am hlt]
    rw [show ampmP ['A', 'M'] = some (false, []) from rfl]
    simp only [Option.some_bind, reduceIte]
    rw [hour24_am hlt]
  · rw [ampm_pm (by omega)]
    rw [show ampmP ['P', 'M'] = some (true, []) from rfl]
    simp only [Option.some_bind, reduceIte]
    rw [hour24_pm (by omega) hh]

theorem pIp_rt {h : Nat} (hh : h < 24) :
    pIp (pad2 (hour12 h) ++ ' ' :: ampmCharsOf h) = some ⟨h, 0⟩ := by
  obtain ⟨junkI, hI, _⟩ := altsM_pad2 hour12_ge hour12_le
    (' ' :: ampmCharsOf h)
  unfold pIp
  simp only [altsI]
  rw [hI]
  apply firstSome_cons_of_some
  simp only [Option.some_bind]
  rw [wsP_space]
  by_cases hlt : h < 12
  · rw [ampm_am hlt]
    simp only [Option.some_bind]
    rw [show (['A', 'M'] : List Char).dropWhile isSpaceChar = ['A', 'M']
      from rfl]
    rw [show ampmP ['A', 'M'] = some (false, []) from rfl]
    simp only [Option.some_bind, reduceIte]
    rw [hour24_am hlt]
  · rw [ampm_pm (by omega)]
    simp only [Option.some_bind]
    rw [show (['P', 'M'] : List Char).dropWhile isSpaceChar = ['P', 'M']
      from rfl]
    rw [show ampmP ['P', 'M'] = some (true, []) from rfl]
    simp only [Option.some_bind, reduceIte]
    rw [hour24_pm (by omega) hh]

theorem pIpn_rt {h : Nat} (hh : h < 24) :
    pIpn (pad2 (hour12 h) ++ ampmCharsOf h) = some ⟨h, 0⟩ := by
  obtain ⟨junkI, hI, _⟩ := altsM_pad2 hour12_ge hour12_le
    (ampmCharsOf h)
  unfold pIpn
  simp only [altsI]
  rw [hI]
  apply firstSome_cons_of_some
  by_cases hlt : h < 12
  · rw [ampm_am hlt]
    rw [show ampmP ['A', 'M'] = some (false, []) from rfl]
    simp only [Option.some_bind, reduceIte]
    rw [hour24_am hlt]
  · rw [ampm_pm (by omega)]
    rw [show ampmP ['P', 'M'] = some (true, []) from rfl]
    simp only [Option.some_bind, reduceIte]
    rw [hour24_pm (by omega) hh]

theorem pHM_none_sep {i12 : Nat} (hi : i12 ≤ 23) {c : Char} {R : List Char}
    (hc : c ≠ ':') : pHM (pad2 i12 ++ c :: R) = none := by
  unfold pHM
  rw [altsH_pad2 hi]
  apply firstSome_none
  intro a ha
  rcases List.mem_cons.mp ha with rfl | ha2
  · simp only [litP_of_ne hc, Option.none_bind]
  · simp only [List.mem_singleton] at ha2
    subst ha2
    simp only [litP_of_ne (digitChar_ne (show i12 % 10 < 10 by omega)
      (show digitVal ':' = none from by decide)), Option.none_bind]

theorem pHM_none_trailing {i12 mi : Nat} (hi : i12 ≤ 23) (hmi : mi ≤ 59)
    {c : Char} {R : List Char} :
    pHM (pad2 i12 ++ ':' :: (pad2 mi ++ c :: R)) = none := by
  unfold pHM
  rw [altsH_pad2 hi]
  apply firstSome_none
  intro a ha
  rcases List.mem_cons.mp ha with rfl | ha2
  · simp only [litP, reduceIte, Option.some_bind]
    rw [altsMin_pad2 hmi]
    apply firstSome_none
    intro b hb
    rcases List.mem_cons.mp hb with rfl | hb2
    · simp
    · simp only [List.mem_singleton] at hb2
      subst hb2
      simp
  · simp only [List.mem_singleton] at ha2
    subst ha2
    simp only [litP_of_ne (digitChar_ne (show i12 % 10 < 10 by omega)
      (show digitVal ':' = none from by decide)), Option.none_bind]

theorem pIMp_none_sep {i12 : Nat} (hi1 : 1 ≤ i12) (hi2 : i12 ≤ 12)
    {c : Char} {R : List Char} (hc : c ≠ ':') :
    pIMp (pad2 i12 ++ c :: R) = none := by
  obtain ⟨junkI, hI, hjunk⟩ := altsM_pad2 hi1 hi2 (c :: R)
  unfold pIMp
  simp only [altsI]
  rw [hI]
  apply firstSome_none
  intro a ha
  rcases List.mem_cons.mp ha with rfl | ha2
  · simp only [litP_of_ne hc, Option.none_bind]
  · obtain ⟨v, rfl⟩ := hjunk a ha2
    simp only [litP_of_ne (digitChar_ne (show i12 % 10 < 10 by omega)
      (show digitVal ':' = none from by decide)), Option.none_bind]

theorem pIMpn_none_sep {i12 : Nat} (hi1 : 1 ≤ i12) (hi2 : i12 ≤ 12)
    {c : Char} {R : List Char} (hc : c ≠ ':') :
    pIMpn (pad2 i12 ++ c :: R) = none := by
  obtain ⟨junkI, hI, hjunk⟩ := altsM_pad2 hi1 hi2 (c :: R)
  unfold pIMpn
  simp only [altsI]
  rw [hI]
  apply firstSome_none
  intro a ha
  rcases List.mem_cons.mp ha with rfl | ha2
  · simp only [litP_of_ne hc, Option.none_bind]
  · obtain ⟨v, rfl⟩ := hjunk a ha2
    simp only [litP_of_ne (digitChar_ne (show i12 % 10 < 10 by omega)
      (show digitVal ':' = none from by decide)), Option.none_bind]

theorem pIMp_none_nospace {i12 mi : Nat} (hi1 : 1 ≤ i12) (hi2 : i12 ≤ 12)
    (hmi : mi ≤ 59) {c : Char} {R : List Char}
    (hcsp : isSpaceChar c = false) :
    pIMp (pad2 i12 ++ ':' :: (pad2 mi ++ c :: R)) = none := by
  obtain ⟨junkI, hI, hjunk⟩ := altsM_pad2 hi1 hi2
    (':' :: (pad2 mi ++ c :: R))
  unfold pIMp
  simp only [altsI]
  rw [hI]
  apply firstSome_none
  intro a ha
  rcases List.mem_cons.mp ha with rfl | ha2
  · simp only [litP, reduceIte, Option.some_bind]
    rw [altsMin_pad2 hmi]
    apply firstSome_none
    intro b hb
    rcases List.mem_cons.mp hb with rfl | hb2
    · simp only [wsP_nonspace hcsp, Option.none_bind]
    · simp only [List.mem_singleton] at hb2
      subst hb2
      simp only [wsP_nonspace (notSpace_digitChar
        (show mi % 10 < 10 by omega)), Option.none_bind]
  · obtain ⟨v, rfl⟩ := hjunk a ha2
    simp only [litP_of_ne (digitChar_ne (show i12 % 10 < 10 by omega)
      (show digitVal ':' = none from by decide)), Option.none_bind]

theorem pIp_none_nonspace {i12 : Nat} (hi1 : 1 ≤ i12) (hi2 : i12 ≤ 12)
    {c : Char} {R : List Char} (hcsp : isSpaceChar c = false) :
    pIp (pad2 i12 ++ c :: R) = none := by
  obtain ⟨junkI, hI, hjunk⟩ := altsM_pad2 hi1 hi2 (c :: R)
  unfold pIp
  simp only [altsI]
  rw [hI]
  apply firstSome_none
  intro a ha
  rcases List.mem_cons.mp ha with rfl | ha2
  · simp only [wsP_nonspace hcsp, Option.none_bind]
  · obtain ⟨v, rfl⟩ := hjunk a ha2
    simp only [wsP_nonspace (notSpace_digitChar
      (show i12 % 10 < 10 by omega)), Option.none_bind]

theorem hour12_le23 {h : Nat} : hour12 h ≤ 23 :=
  le_trans hour12_le (by omega)

theorem timeCascade_HM {h mi : Nat} (hh : h < 24) (hmi : mi < 60) :
    tryTimeFormats timeFormats (pad2 h ++ ':' :: pad2 mi) = some ⟨h, mi⟩ := by
  have h1 := pHM_rt hh hmi
  simp [timeFormats, tryTimeFormats, strptimeTimeF, h1]

theorem timeCascade_IMp {h mi : Nat} (hh : h < 24) (hmi : mi < 60) :
    tryTimeFormats timeFormats
        (pad2 (hour12 h) ++ ':' :: (pad2 mi ++ ' ' :: ampmCharsOf h)) =
      some ⟨h, mi⟩ := by
  have h0 : pHM (pad2 (hour12 h) ++ ':' ::
      (pad2 mi ++ ' ' :: ampmCharsOf h)) = none :=
    pHM_none_trailing hour12_le23 (by omega)
  have h1 := pIMp_rt hh hmi
  simp [timeFormats, tryTimeFormats, strptimeTimeF, h0, h1]

theorem timeCascade_IMpn {h mi : Nat} (hh : h < 24) (hmi : mi < 60) :
    tryTimeFormats timeFormats
        (pad2 (hour12 h) ++ ':' :: (pad2 mi ++ ampmCharsOf h)) =
      some ⟨h, mi⟩ := by
  have h2 := pIMpn_rt hh hmi
  by_cases hlt : h < 12
  · rw [ampm_am hlt] at h2 ⊢
    have h0 : pHM (pad2 (hour12 h) ++ ':' ::
        (pad2 mi ++ 'A' :: ['M'])) = none :=
      pHM_none_trailing hour12_le23 (by omega)
    have h1 : pIMp (pad2 (hour12 h) ++ ':' ::
        (pad2 mi ++ 'A' :: ['M'])) = none :=
      pIMp_none_nospace hour12_ge hour12_le (by omega) (by decide)
    simp [timeFormats, tryTimeFormats, strptimeTimeF, h0, h1, h2]
  · rw [ampm_pm (by omega)] at h2 ⊢
    have h0 : pHM (pad2 (hour12 h) ++ ':' ::
        (pad2 mi ++ 'P' :: ['M'])) = none :=
      pHM_none_trailing hour12_le23 (by omega)
    have h1 : pIMp (pad2 (hour12 h) ++ ':' ::
        (pad2 mi ++ 'P' :: ['M'])) = none :=
      pIMp_none_nospace hour12_ge hour12_le (by omega) (by decide)
    simp [timeFormats, tryTimeFormats, strptimeTimeF, h0, h1, h2]

theorem timeCascade_Ip {h : Nat} (hh : h < 24) :
    tryTimeFormats timeFormats (pad2 (hour12 h) ++ ' ' :: ampmCharsOf h) =
      some ⟨h, 0⟩ := by
  have h0 : pHM (pad2 (hour12 h) ++ ' ' :: ampmCharsOf h) = none :=
    pHM_none_sep hour12_le23 (by decide)
  have h1 : pIMp (pad2 (hour12 h) ++ ' ' :: ampmCharsOf h) = none :=
    pIMp_none_sep hour12_ge hour12_le (by decide)
  have h2 : pIMpn (pad2 (hour12 h) ++ ' ' :: ampmCharsOf h) = none :=
    pIMpn_none_sep hour12_ge hour12_le (by decide)
  have h3 := pIp_rt hh
  simp [timeFormats, tryTimeFormats, strptimeTimeF, h0, h1, h2, h3]

theorem timeCascade_Ipn {h : Nat} (hh : h < 24) :
    tryTimeFormats timeFormats (pad2 (hour12 h) ++ ampmCharsOf h) =
      some ⟨h, 0⟩ := by
  have h4 := pIpn_rt hh
  by_cases hlt : h < 12
  · rw [ampm_am hlt] at h4 ⊢
    have h0 : pHM (pad2 (hour12 h) ++ 'A' :: ['M']) = none :=
      pHM_none_sep hour12_le23 (by decide)
    have h1 : pIMp (pad2 (hour12 h) ++ 'A' :: ['M']) = none :=
      pIMp_none_sep hour12_ge hour12_le (by decide)
    have h2 : pIMpn (pad2 (hour12 h) ++ 'A' :: ['M']) = none :=
      pIMpn_none_sep hour12_ge hour12_le (by decide)
    have h3 : pIp (pad2 (hour12 h) ++ 'A' :: ['M']) = none :=
      pIp_none_nonspace hour12_ge hour12_le (by decide)
    simp [timeFormats, tryTimeFormats, strptimeTimeF, h0, h1, h2, h3, h4]
  · rw [ampm_pm (by omega)] at h4 ⊢
    have h0 : pHM (pad2 (hour12 h) ++ 'P' :: ['M']) = none :=
      pHM_none_sep hour12_le23 (by decide)
    have h1 : pIMp (pad2 (hour12 h) ++ 'P' :: ['M']) = none :=
      pIMp_none_sep hour12_ge hour12_le (by decide)
    have h2 : pIMpn (pad2 (hour12 h) ++ 'P' :: ['M']) = none :=
      pIMpn_none_sep hour12_ge hour12_le (by decide)
    have h3 : pIp (pad2 (hour12 h) ++ 'P' :: ['M']) = none :=
      pIp_none_nonspace hour12_ge hour12_le (by decide)
    simp [timeFormats, tryTimeFormats, strptimeTimeF, h0, h1, h2, h3, h4]

theorem stripChars_ends {c1 c2 : Char} {mid : List Char}
    (h1 : isSpaceChar c1 = false) (h2 : isSpaceChar c2 = false) :
    stripChars ((c1 :: mid) ++ [c2]) = (c1 :: mid) ++ [c2] := by
  apply stripChars_eq_self
  · intro c hc
    rw [show ((c1 :: mid) ++ [c2]).head? = some c1 from rfl] at hc
    injection hc with h
    rw [← h]
    exact h1
  · intro c hc
    rw [List.getLast?_concat] at hc
    injection hc with h
    rw [← h]
    exact h2

theorem strip_date1 {y m d : Nat} (hy2 : y ≤ 9999) :
    stripChars (pad4 y ++ '-' :: (pad2 m ++ '-' :: pad2 d)) =
      pad4 y ++ '-' :: (pad2 m ++ '-' :: pad2 d) := by
  have e : pad4 y ++ '-' :: (pad2 m ++ '-' :: pad2 d) =
      (digitChar (y / 1000) :: [digitChar (y / 100 % 10),
        digitChar (y / 10 % 10), digitChar (y % 10), '-',
        digitChar (m / 10), digitChar (m % 10), '-',
        digitChar (d / 10)]) ++ [digitChar (d % 10)] := rfl
  rw [e]
  exact stripChars_ends (notSpace_digitChar (by omega))
    (notSpace_digitChar (by omega))

theorem strip_date2 {y m d : Nat} (hm : m ≤ 12) :
    stripChars (pad2 m ++ '/' :: (pad2 d ++ '/' :: pad4 y)) =
      pad2 m ++ '/' :: (pad2 d ++ '/' :: pad4 y) := by
  have e : pad2 m ++ '/' :: (pad2 d ++ '/' :: pad4 y) =
      (digitChar (m / 10) :: [digitChar (m % 10), '/',
        digitChar (d / 10), digitChar (d % 10), '/',
        digitChar (y / 1000), digitChar (y / 100 % 10),
        digitChar (y / 10 % 10)]) ++ [digitChar (y % 10)] := rfl
  rw [e]
  exact stripChars_ends (notSpace_digitChar (by omega))
    (notSpace_digitChar (by omega))

theorem strip_date3 {y m d : Nat} (hm : m ≤ 12) :
    stripChars (pad2 m ++ '-' :: (pad2 d ++ '-' :: pad4 y)) =
      pad2 m ++ '-' :: (pad2 d ++ '-' :: pad4 y) := by
  have e : pad2 m ++ '-' :: (pad2 d ++ '-' :: pad4 y) =
      (digitChar (m / 10) :: [digitChar (m % 10), '-',
        digitChar (d / 10), digitChar (d % 10), '-',
        digitChar (y / 1000), digitChar (y / 100 % 10),
        digitChar (y / 10 % 10)]) ++ [digitChar (y % 10)] := rfl
  rw [e]
  exact stripChars_ends (notSpace_digitChar (by omega))
    (notSpace_digitChar (by omega))

theorem strip_named {c : Char} {cs : List Char} {y d : Nat}
    (hcsp : isSpaceChar c = false) :
    stripChars ((c :: cs) ++ ' ' :: (pad2 d ++ ',' :: ' ' :: pad4 y)) =
      (c :: cs) ++ ' ' :: (pad2 d ++ ',' :: ' ' :: pad4 y) := by
  have e : (c :: cs) ++ ' ' :: (pad2 d ++ ',' :: ' ' :: pad4 y) =
      (c :: (cs ++ ' ' :: (pad2 d ++ ',' :: ' ' ::
        [digitChar (y / 1000), digitChar (y / 100 % 10),
         digitChar (y / 10 % 10)]))) ++ [digitChar (y % 10)] := by
    simp only [List.cons_append, List.append_assoc]
    rfl
  rw [e]
  exact stripChars_ends hcsp (notSpace_digitChar (by omega))

theorem strip_time1 {h mi : Nat} (hh : h < 24) :
    stripChars (pad2 h ++ ':' :: pad2 mi) = pad2 h ++ ':' :: pad2 mi := by
  have e : pad2 h ++ ':' :: pad2 mi =
      (digitChar (h / 10) :: [digitChar (h % 10), ':',
        digitChar (mi / 10)]) ++ [digitChar (mi % 10)] := rfl
  rw [e]
  exact stripChars_ends (notSpace_digitChar (by omega))
    (notSpace_digitChar (by omega))

theorem strip_time2 {h mi : Nat} :
    stripChars (pad2 (hour12 h) ++ ':' :: (pad2 mi ++ ' ' :: ampmCharsOf h))
      = pad2 (hour12 h) ++ ':' :: (pad2 mi ++ ' ' :: ampmCharsOf h) := by
  have h12 : hour12 h ≤ 12 := hour12_le
  by_cases hlt : h < 12
  · rw [ampm_am hlt]
    have e : pad2 (hour12 h) ++ ':' :: (pad2 mi ++ ' ' :: ['A', 'M']) =
        (digitChar (hour12 h / 10) :: [digitChar (hour12 h % 10), ':',
          digitChar (mi / 10), digitChar (mi % 10), ' ', 'A']) ++ ['M'] :=
      rfl
    rw [e]
    exact stripChars_ends (notSpace_digitChar (by omega)) (by decide)
  · rw [ampm_pm (by omega)]
    have e : pad2 (hour12 h) ++ ':' :: (pad2 mi ++ ' ' :: ['P', 'M']) =
        (digitChar (hour12 h / 10) :: [digitChar (hour12 h % 10), ':',
          digitChar (mi / 10), digitChar (mi % 10), ' ', 'P']) ++ ['M'] :=
      rfl
    rw [e]
    exact stripChars_ends (notSpace_digitChar (by omega)) (by decide)

theorem strip_time3 {h mi : Nat} :
    stripChars (pad2 (hour12 h) ++ ':' :: (pad2 mi ++ ampmCharsOf h)) =
      pad2 (hour12 h) ++ ':' :: (pad2 mi ++ ampmCharsOf h) := by
  have h12 : hour12 h ≤ 12 := hour12_le
  by_cases hlt : h < 12
  · rw [ampm_am hlt]
    have e : pad2 (hour12 h) ++ ':' :: (pad2 mi ++ ['A', 'M']) =
        (digitChar (hour12 h / 10) :: [digitChar (hour12 h % 10), ':',
          digitChar (mi / 10), digitChar (mi % 10), 'A']) ++ ['M'] := rfl
    rw [e]
    exact stripChars_ends (notSpace_digitChar (by omega)) (by decide)
  · rw [ampm_pm (by omega)]
    have e : pad2 (hour12 h) ++ ':' :: (pad2 mi ++ ['P', 'M']) =
        (digitChar (hour12 h / 10) :: [digitChar (hour12 h % 10), ':',
          digitChar (mi / 10), digitChar (mi % 10), 'P']) ++ ['M'] := rfl
    rw [e]
    exact stripChars_ends (notSpace_digitChar (by omega)) (by decide)

theorem strip_time4 {h : Nat} :
    stripChars (pad2 (hour12 h) ++ ' ' :: ampmCharsOf h) =
      pad2 (hour12 h) ++ ' ' :: ampmCharsOf h := by
  have h12 : hour12 h ≤ 12 := hour12_le
  by_cases hlt : h < 12
  · rw [ampm_am hlt]
    have e : pad2 (hour12 h) ++ ' ' :: ['A', 'M'] =
        (digitChar (hour12 h / 10) :: [digitChar (hour12 h % 10), ' ',
          'A']) ++ ['M'] := rfl
    rw [e]
    exact stripChars_ends (notSpace_digitChar (by omega)) (by decide)
  · rw [ampm_pm (by omega)]
    have e : pad2 (hour12 h) ++ ' ' :: ['P', 'M'] =
        (digitChar (hour12 h / 10) :: [digitChar (hour12 h % 10), ' ',
          'P']) ++ ['M'] := rfl
    rw [e]
    exact stripChars_ends (notSpace_digitChar (by omega)) (by decide)

theorem strip_time5 {h : Nat} :
    stripChars (pad2 (hour12 h) ++ ampmCharsOf h) =
      pad2 (hour12 h) ++ ampmCharsOf h := by
  have h12 : hour12 h ≤ 12 := hour12_le
  by_cases hlt : h < 12
  · rw [ampm_am hlt]
    have e : pad2 (hour12 h) ++ ['A', 'M'] =
        (digitChar (hour12 h / 10) :: [digitChar (hour12 h % 10), 'A']) ++
          ['M'] := rfl
    rw [e]
    exact stripChars_ends (notSpace_digitChar (by omega)) (by decide)
  · rw [ampm_pm (by omega)]
    have e : pad2 (hour12 h) ++ ['P', 'M'] =
        (digitChar (hour12 h / 10) :: [digitChar (hour12 h % 10), 'P']) ++
          ['M'] := rfl
    rw [e]
    exact stripChars_ends (notSpace_digitChar (by omega)) (by decide)

theorem c8_dateSide {y m d : Nat} {df : String} (hdf : df ∈ dateFormats)
    (hy1 : 1 ≤ y) (hy2 : y ≤ 9999) (hm1 : 1 ≤ m) (hm2 : m ≤ 12)
    (hd1 : 1 ≤ d) (hd2 : d ≤ daysInMonth y m) :
    tryDateFormats dateFormats
      (stripChars (strftimeDateChars df ⟨y, m, d⟩)) = some ⟨y, m, d⟩ := by
  simp only [dateFormats, List.mem_cons, List.not_mem_nil, or_false] at hdf
  rcases hdf with rfl | rfl | rfl | rfl | rfl
  · rw [show strftimeDateChars "%Y-%m-%d" ⟨y, m, d⟩ =
        pad4 y ++ '-' :: (pad2 m ++ '-' :: pad2 d) from rfl,
      strip_date1 hy2]
    exact dateCascade_Ymd hy1 hy2 hm1 hm2 hd1 hd2
  · rw [show strftimeDateChars "%m/%d/%Y" ⟨y, m, d⟩ =
        pad2 m ++ '/' :: (pad2 d ++ '/' :: pad4 y) from rfl,
      strip_date2 hm2]
    exact dateCascade_MdYs hy1 hy2 hm1 hm2 hd1 hd2
  · rw [show strftimeDateChars "%m-%d-%Y" ⟨y, m, d⟩ =
        pad2 m ++ '-' :: (pad2 d ++ '-' :: pad4 y) from rfl,
      strip_date3 hm2]
    exact dateCascade_MdYd hy1 hy2 hm1 hm2 hd1 hd2
  · obtain ⟨c, cs, hc, _, hcsp⟩ := monthCapChars_spec hm1 hm2
    rw [show strftimeDateChars "%B %d, %Y" ⟨y, m, d⟩ =
        monthCapChars m ++ ' ' :: (pad2 d ++ ',' :: ' ' :: pad4 y) from rfl,
      hc, strip_named hcsp, ← hc]
    exact dateCascade_BdY hy1 hy2 hm1 hm2 hd1 hd2
  · obtain ⟨c, cs, hc, _, hcsp⟩ := monthAbbrevChars_spec hm1 hm2
    rw [show strftimeDateChars "%b %d, %Y" ⟨y, m, d⟩ =
        monthAbbrevChars m ++ ' ' :: (pad2 d ++ ',' :: ' ' :: pad4 y)
        from rfl,
      hc, strip_named hcsp, ← hc]
    exact dateCascade_bdY hy1 hy2 hm1 hm2 hd1 hd2

theorem c8_timeSide {h mi : Nat} {tf : String} (htf : tf ∈ timeFormats)
    (hh : h < 24) (hmi : mi < 60)
    (hml : (tf = "%I %p" ∨ tf = "%I%p") → mi = 0) :
    tryTimeFormats timeFormats
      (stripChars (strftimeTimeChars tf ⟨h, mi⟩)) = some ⟨h, mi⟩ := by
  simp only [timeFormats, List.mem_cons, List.not_mem_nil, or_false] at htf
  rcases htf with rfl | rfl | rfl | rfl | rfl
  · rw [show strftimeTimeChars "%H:%M" ⟨h, mi⟩ =
        pad2 h ++ ':' :: pad2 mi from rfl,
      strip_time1 hh]
    exact timeCascade_HM hh hmi
  · rw [show strftimeTimeChars "%I:%M %p" ⟨h, mi⟩ =
        pad2 (hour12 h) ++ ':' :: (pad2 mi ++ ' ' :: ampmCharsOf h)
        from rfl,
      strip_time2]
    exact timeCascade_IMp hh hmi
  · rw [show strftimeTimeChars "%I:%M%p" ⟨h, mi⟩ =
        pad2 (hour12 h) ++ ':' :: (pad2 mi ++ ampmCharsOf h) from rfl,
      strip_time3]
    exact timeCascade_IMpn hh hmi
  · have hz : mi = 0 := hml (Or.inl rfl)
    subst hz
    rw [show strftimeTimeChars "%I %p" ⟨h, 0⟩ =
        pad2 (hour12 h) ++ ' ' :: ampmCharsOf h from rfl,
      strip_time4]
    exact timeCascade_Ip hh
  · have hz : mi = 0 := hml (Or.inr rfl)
    subst hz
    rw [show strftimeTimeChars "%I%p" ⟨h, 0⟩ =
        pad2 (hour12 h) ++ ampmCharsOf h from rfl,
      strip_time5]
    exact timeCascade_Ipn hh

/-- C8 (corrected): the round-trip holds for every supported date format
and for the three time formats that render minutes; the minute-less
formats "%I %p" and "%I%p" round-trip only instants whose minute is 0,
because formatting discards the minute. For every valid proleptic
Gregorian instant within strftime's year range, formatting with any
supported date pattern and any supported time pattern (with minute 0 if
the pattern omits minutes) and re-parsing through the
_parse_datetime cascade recovers the original instant. -/
theorem c8_roundtrip_amended :
    ∀ (y m d h mi : Nat) (df tf : String), df ∈ dateFormats →
    tf ∈ timeFormats → 1 ≤ y → y ≤ 9999 → 1 ≤ m → m ≤ 12 → 1 ≤ d →
    d ≤ daysInMonth y m → h < 24 → mi < 60 →
    ((tf = "%I %p" ∨ tf = "%I%p") → mi = 0) →
    parseDatetime (strftimeDate df ⟨y, m, d⟩) (strftimeTime tf ⟨h, mi⟩) =
      some ⟨⟨y, m, d⟩, ⟨h, mi⟩⟩ := by
  intro y m d h mi df tf hdf htf hy1 hy2 hm1 hm2 hd1 hd2 hh hmi hml
  unfold parseDatetime
  rw [show (strftimeDate df ⟨y, m, d⟩).toList =
      strftimeDateChars df ⟨y, m, d⟩ from rfl,
    show (strftimeTime tf ⟨h, mi⟩).toList =
      strftimeTimeChars tf ⟨h, mi⟩ from rfl,
    c8_dateSide hdf hy1 hy2 hm1 hm2 hd1 hd2, c8_timeSide htf hh hmi hml]

/-- C8 counterexample: the minute-less format "%I %p" is accepted by the
parser cascade, yet formatting 14:30 with it yields "02 PM", which
re-parses to 14:00, not the original instant — the unconditional
round-trip claim fails. -/
theorem c8_counterexample :
    strftimeTime "%I %p" ⟨14, 30⟩ = "02 PM" ∧
    parseDatetime (strftimeDate "%Y-%m-%d" ⟨2025, 11, 3⟩)
        (strftimeTime "%I %p" ⟨14, 30⟩) =
      some ⟨⟨2025, 11, 3⟩, ⟨14, 0⟩⟩ ∧
    (⟨⟨2025, 11, 3⟩, ⟨14, 0⟩⟩ : PDateTime) ≠ ⟨⟨2025, 11, 3⟩, ⟨14, 30⟩⟩ :=
  ⟨rfl, by decide, by decide⟩

theorem c8_roundtrip_amended_witness :
    parseDatetime (strftimeDate "%m/%d/%Y" ⟨2025, 11, 3⟩)
        (strftimeTime "%I:%M %p" ⟨14, 30⟩) =
      some ⟨⟨2025, 11, 3⟩, ⟨14, 30⟩⟩ :=
  c8_roundtrip_amended 2025 11 3 14 30 "%m/%d/%Y" "%I:%M %p" (by decide)
    (by decide) (by decide) (by decide) (by decide) (by decide) (by decide)
    (by decide) (by decide) (by decide) (by decide)

end AR
